import Mathlib

/-!
A formal model of the move-ordering core of the Rapfi engine
(src/Rapfi/search/movepick.h and src/Rapfi/search/movepick.cpp).

The C++ code is shallowly embedded: pure helper routines become Lean
functions on lists, the `MovePicker` object becomes an explicit state
record, and `MovePicker::operator()` becomes a state-transition function
`pick`.  Machine integers (`Score`, history values) are modelled as `Int`
with C++ truncating division written `Int.tdiv`.  External collaborators
that are not part of this repository slice (the `Board`, the move
generators `generate<K>`, the histories, the neural evaluator) are
modelled as record fields holding arbitrary data, constrained only where
the specification constrains them.
-/

namespace Rapfi

/-- Scores are machine integers in the engine; modelled as `Int`. -/
abbrev Score := Int

/-- A board coordinate: either the sentinel `NONE` or a cell.
Modelled from the spec: a `Pos` is a legal cell `(x, y)` or `NONE`. -/
inductive Pos where
  | NONE : Pos
  | cellAt (x y : Nat) : Pos
deriving DecidableEq, Repr

/-- Stone colors. -/
inductive Color where
  | BLACK : Color
  | WHITE : Color
deriving DecidableEq, Repr

/-- The opponent color, written `~c` in the source. -/
def Color.opp : Color → Color
  | .BLACK => .WHITE
  | .WHITE => .BLACK

/-- Game rules. -/
inductive Rule where
  | FREESTYLE : Rule
  | STANDARD : Rule
  | RENJU : Rule
deriving DecidableEq, Repr

/-- Pattern4 threat classes, modelled from the spec as ordered constants:
larger values denote stronger immediate threats, with
`H_FLEX3 < FORBID < E_BLOCK4 < D_BLOCK4_PLUS < C_BLOCK4_FLEX3 < B_FLEX4 < A_FIVE`
(the ordering used by the comparisons in movepick.cpp; the enum itself
lives in a header outside this repository slice). -/
abbrev Pattern4 := Nat

def H_FLEX3 : Pattern4 := 5

def FORBID : Pattern4 := 8

def E_BLOCK4 : Pattern4 := 9

def D_BLOCK4_PLUS : Pattern4 := 10

def C_BLOCK4_FLEX3 : Pattern4 := 11

def B_FLEX4 : Pattern4 := 12

def A_FIVE : Pattern4 := 13

/-- Aggregate view of one board square: per-color pattern4 classification
and per-color static score. -/
structure Cell where
  pattern4 : Color → Pattern4
  score : Color → Score

/-- A move-buffer element: position, ordering score and pre-history raw
score (movegen.h; modelled from the spec, which defines the element as a
`(position, score, raw_score)` triple ordered by `score`). -/
structure Move where
  pos : Pos
  score : Score
  rawScore : Score
deriving DecidableEq, Repr

/-- The two kinds of main-history slots (`HIST_ATTACK` / `HIST_QUIET`). -/
inductive HistKind where
  | attack : HistKind
  | quiet : HistKind
deriving DecidableEq

/-- `MainHistory[color][pos][kind]`, modelled as a total function. -/
abbrev MainHistory := Color → Pos → HistKind → Int

/-- `CounterMoveHistory[color][lastMove]`, yielding the counter move and
its pattern4 class.  The dense `moveIndex` key is modelled by keying on
the position itself. -/
abbrev CounterMoveHistory := Color → Pos → Pos × Pattern4

/-- External board capability, modelled from the spec: read-only accessors
plus the move-generation facade.  Each `generate<K>` instantiation used by
movepick.cpp is one field holding the list of moves it would write. -/
structure Board where
  sideToMove : Color
  cell : Pos → Cell
  isEmpty : Pos → Bool
  isInBoard : Pos → Bool
  p4Count : Color → Pattern4 → Nat
  getLastMove : Pos
  getLastActualMoveOfSide : Color → Pos
  checkForbiddenPoint : Pos → Bool
  validateOpponentCMove : Bool
  evaluator : Option (Pos → Score)
  genWinning : List Move
  genDefendFive : List Move
  genDefendFour : List Move
  genDefendFourAll : List Move
  genVcf : List Move
  genAll : List Move
  genDefendB4F3 : Rule → List Move
  genNeighborsVcf : Pos → List Move
  genNeighborsVcfComb : Pos → List Move

/-! ## The partial sorter (movepick.cpp, `fastPartialSort`)

`Move` is ordered by `score` (the spec: `score` is the ordering key).
The C++ routine dispatches on the list length among three algorithms:
the Stockfish-style partial insertion sort, `std::sort` with `greater`,
and `std::partial_sort` with `greater`. -/

/-- One step of the partial insertion sort's inner loop: insert `e` into a
descending-sorted list, shifting over elements whose score is strictly
smaller than `e`'s (the C++ loop condition is `*(q - 1) < tmp`). -/
def insertDesc (e : Move) : List Move → List Move
  | [] => [e]
  | x :: xs => if x.score < e.score then e :: x :: xs else x :: insertDesc e xs

/-- The first branch of `fastPartialSort` (`nMoves <= MAX_MOVES / 4`):
the partial insertion sort.  `sorted` models the region
`[begin, sortedEnd]` (which always contains the original first element),
`pending` models the skipped below-limit region `(sortedEnd, p)`; when a
qualifying element is extracted, the element at `sortedEnd + 1` (the head
of `pending`) is moved into the vacated slot at `p` (the back of
`pending`). -/
def insertionLoop (limit : Score) (sorted pending : List Move) : List Move → List Move
  | [] => sorted ++ pending
  | e :: es =>
    if limit ≤ e.score then
      match pending with
      | [] => insertionLoop limit (insertDesc e sorted) [] es
      | d :: ds => insertionLoop limit (insertDesc e sorted) (ds ++ [d]) es
    else
      insertionLoop limit sorted (pending ++ [e]) es

/-- The partial insertion sort on a whole buffer: the element at `begin`
starts out inside the sorted region, iteration starts at `begin + 1`. -/
def insertionSortPart (limit : Score) : List Move → List Move
  | [] => []
  | first :: rest => insertionLoop limit [first] [] rest

/-- A deterministic model of `std::sort(begin, end, std::greater<>())`:
descending insertion sort.  `std::sort` leaves the relative order of
equal-score elements unspecified; this model keeps earlier elements of an
equal-score run first. -/
def sortDesc (l : List Move) : List Move := l.foldr insertDesc []

/-- A deterministic model of
`std::partial_sort(begin, begin + m, end, std::greater<>())`: the `m`
largest elements, sorted descending, followed by the leftover elements.
The C++ standard leaves the order of `[middle, end)` unspecified; this
model keeps the leftovers in their original relative order, which agrees
with libstdc++'s heap-select on the concrete inputs used below. -/
def partSortDesc (m : Nat) (l : List Move) : List Move :=
  let front := (sortDesc l).take m
  front ++ l.diff front

/-- `fastPartialSort` (movepick.cpp lines 48-73).  `maxMoves` is the
buffer capacity constant `MAX_MOVES` from movegen.h (outside this
repository slice), kept as a parameter; the two branch thresholds are
derived from it exactly as in the source. -/
def fastPartialSort (maxMoves : Nat) (l : List Move) (limit : Score) : List Move :=
  if l.length ≤ maxMoves / 4 then insertionSortPart limit l
  else if l.length ≤ maxMoves * 2 / 3 then sortDesc l
  else partSortDesc (maxMoves * 2 / 3) l

/-- Descending-by-score ordering on buffer elements. -/
def descBy (a b : Move) : Prop := b.score ≤ a.score

instance : DecidableRel descBy := fun a b => inferInstanceAs (Decidable (b.score ≤ a.score))

/-- The output condition claimed for the partial sorter: the elements
scoring at least `limit` occupy a prefix, sorted in descending score
order, and every element of the tail scores below `limit`. -/
def sortSpecProp (limit : Score) (l : List Move) : Prop :=
  ∃ hi lo, l = hi ++ lo ∧ (∀ m ∈ hi, limit ≤ m.score) ∧
    (∀ m ∈ lo, m.score < limit) ∧ List.Pairwise descBy hi

/-! ## Stages (movepick.cpp, anonymous-namespace enum `Stages`)

The source stores the stage in an `int8_t` and skips a TT stage with
`stage += !ttmValid`; stages are therefore modelled as naturals with the
enum's ordinal values. -/

def MAIN_TT : Nat := 0

def MAIN_MOVES : Nat := 1

def DEFENDFIVE_TT : Nat := 2

def DEFENDFIVE_MOVES : Nat := 3

def DEFENDFOUR_TT : Nat := 4

def DEFENDFOUR_MOVES : Nat := 5

def DEFENDB4F3_TT : Nat := 6

def DEFENDB4F3_MOVES : Nat := 7

def QVCF_TT : Nat := 8

def QVCF_MOVES : Nat := 9

def ALLMOVES : Nat := 10

/-- The `X_TT` stages, from which `operator()` emits the TT move. -/
def isTTStage (s : Nat) : Bool :=
  s = MAIN_TT || s = DEFENDFIVE_TT || s = DEFENDFOUR_TT || s = DEFENDB4F3_TT || s = QVCF_TT

/-- The `X_MOVES` stages, which fill the buffer and fall through into
`ALLMOVES`. -/
def isMovesStage (s : Nat) : Bool :=
  s = MAIN_MOVES || s = DEFENDFIVE_MOVES || s = DEFENDFOUR_MOVES ||
    s = DEFENDB4F3_MOVES || s = QVCF_MOVES

/-! ## Score-type flags (movepick.h, enum `ScoreType`) -/

def ST_ATTACK : Nat := 1

def ST_DEFEND : Nat := 2

def ST_BALANCED : Nat := 3

def ST_POLICY : Nat := 4

def ST_MAIN_HISTORY : Nat := 8

def ST_COUNTER_MOVE : Nat := 16

def ST_CONT_HISTORY : Nat := 32

/-- `std::numeric_limits<Score>::lowest() / 2`, the large negative
sentinel initialising `maxPolicyScore` (value modelled from the spec:
half the most negative 16-bit score). -/
def SCORE_LOWEST_HALF : Int := -16384

/-! ## The MovePicker state

Mirrors the data members of class `MovePicker` (movepick.h lines 71-82).
`curMove`/`endMove` delimit the not-yet-consumed slice of the inline
buffer; that slice is modelled as the list `buffer`.  `curScore`,
`curPolicyScore` and `maxPolicyScore` are uninitialized until first
written in the C++ object; `none` models the uninitialized state. -/
structure MovePicker where
  board : Board
  mainHistory : MainHistory
  counterMoveHistory : CounterMoveHistory
  stage : Nat
  rule : Rule
  ttMove : Pos
  allowPlainB4InVCF : Bool
  hasPolicy : Bool
  curScore : Option Score := none
  curPolicyScore : Option Score := none
  maxPolicyScore : Option Score := none
  buffer : List Move := []

/-! ## The scorer (movepick.cpp, `MovePicker::scoreMoves<Type>`) -/

/-- The base assignment of `score` and `rawScore` for one move: the
policy value when policy scoring is active (`pol` is `some` exactly when
`Type & POLICY` is set and an evaluator exists), otherwise the first
matching branch of the `constexpr` if-chain.  Note the source tests
`bool(Type & BALANCED)`, which is already true when only `ATTACK` or only
`DEFEND` is set, so the two later branches are unreachable; the model
reproduces the chain verbatim.  The final fall-through case is a release
no-op (`assert(false)`), leaving the move unchanged. -/
def scoreBase (flags : Nat) (self oppo : Color) (pol : Option (Pos → Score))
    (c : Cell) (m : Move) : Move :=
  match pol with
  | some f => { m with score := f m.pos, rawScore := f m.pos }
  | none =>
    if flags &&& ST_BALANCED ≠ 0 then
      { m with score := c.score self, rawScore := c.score self }
    else if flags &&& ST_ATTACK ≠ 0 then
      let v := Int.tdiv (c.score self * 2 + c.score oppo) 3
      { m with score := v, rawScore := v }
    else if flags &&& ST_DEFEND ≠ 0 then
      let v := Int.tdiv (c.score self + c.score oppo * 2) 3
      { m with score := v, rawScore := v }
    else m

/-- The main-history term added to `score` (never to `rawScore`):
`mainHistory[self][pos][HIST_ATTACK] / 128` above `H_FLEX3`, else
`mainHistory[self][pos][HIST_QUIET] / 256` (C++ signed division
truncates toward zero, hence `Int.tdiv`). -/
def mainHistTerm (mh : MainHistory) (self : Color) (c : Cell) (q : Pos) : Int :=
  if H_FLEX3 ≤ c.pattern4 self then Int.tdiv (mh self q HistKind.attack) 128
  else Int.tdiv (mh self q HistKind.quiet) 256

/-- The counter-move bonus added to `score`: `+21` when the last move is
on board and the recorded counter move matches this position with a
pattern4 class not above this cell's own. -/
def counterMoveTerm (cmh : CounterMoveHistory) (b : Board) (oppo self : Color)
    (c : Cell) (q : Pos) : Int :=
  if b.isInBoard b.getLastMove then
    let cm := cmh oppo b.getLastMove
    if cm.1 = q ∧ cm.2 ≤ c.pattern4 self then 21 else 0
  else 0

/-- Scoring of a single buffer element, the loop body of `scoreMoves`.
`CONT_HISTORY` contributes nothing (its body is commented out in the
source). -/
def scoreMove (p : MovePicker) (flags : Nat) (pol : Option (Pos → Score)) (m : Move) : Move :=
  let self := p.board.sideToMove
  let oppo := self.opp
  let c := p.board.cell m.pos
  let m1 := scoreBase flags self oppo pol c m
  let m2 :=
    if flags &&& ST_MAIN_HISTORY ≠ 0 then
      { m1 with score := m1.score + mainHistTerm p.mainHistory self c m.pos }
    else m1
  if flags &&& ST_COUNTER_MOVE ≠ 0 then
    { m2 with score := m2.score + counterMoveTerm p.counterMoveHistory p.board oppo self c m.pos }
  else m2

/-- `MovePicker::scoreMoves<Type>`: score every buffered move; when
policy scoring runs, set `hasPolicy` and track the maximum raw score
starting from the negative sentinel. -/
def scoreMoves (p : MovePicker) (flags : Nat) : MovePicker :=
  let pol := if flags &&& ST_POLICY ≠ 0 then p.board.evaluator else none
  let buf := p.buffer.map (scoreMove p flags pol)
  { p with
    buffer := buf
    hasPolicy := p.hasPolicy || pol.isSome
    maxPolicyScore :=
      if pol.isSome then some (buf.foldl (fun a m => max a m.rawScore) SCORE_LOWEST_HALF)
      else p.maxPolicyScore }

/-! ## Streaming (movepick.cpp, `MovePicker::pickNextMove<Next>`)

Only the instantiation actually used by `operator()` is modelled:
`PickType` is `Next` and the predicate is the constant-true lambda. -/

/-- The acceptance test applied to each buffered move: not the TT move,
and (under Renju with Black to move) not a forbidden point. -/
def pickAccept (p : MovePicker) (m : Move) : Bool :=
  let forbidden := decide (p.rule = Rule.RENJU) && decide (p.board.sideToMove = Color.BLACK)
  decide (m.pos ≠ p.ttMove) && (!forbidden || !p.board.checkForbiddenPoint m.pos)

/-- The picker state after a successful yield of `m`: the consumed slice
shrinks to `rest` and `curScore`/`curPolicyScore` are written from the
yielded move. -/
def consumeMove (p : MovePicker) (m : Move) (rest : List Move) : MovePicker :=
  { p with buffer := rest, curScore := some m.score, curPolicyScore := some m.rawScore }

/-- The scan loop of `pickNextMove`: advance `curMove` past rejected
elements; on a hit record `curScore`/`curPolicyScore` and consume the
element; on exhaustion return `NONE` with `curMove = endMove`. -/
def pickScan (p : MovePicker) : List Move → Pos × MovePicker
  | [] => (Pos.NONE, { p with buffer := [] })
  | m :: rest =>
    if pickAccept p m then (m.pos, consumeMove p m rest)
    else pickScan p rest

/-- `pickNextMove<Next>` with the constant-true predicate. -/
def pickNextMove (p : MovePicker) : Pos × MovePicker := pickScan p p.buffer

/-! ## The stage machine (movepick.cpp, `MovePicker::operator()`)

Each `X_MOVES` case fills the buffer, scores and sorts as the source
does, sets the stage to `ALLMOVES` and falls through into the pick loop.
The state reached just before that pick is captured by one named
transformer per stage. -/

/-- State after the `MAIN_MOVES` case body: generate `ALL`, score with
`BALANCED | POLICY | MAIN_HISTORY | COUNTER_MOVE | CONT_HISTORY`,
partial-sort at limit 0, stage becomes `ALLMOVES`. -/
def mainMovesState (maxMoves : Nat) (p : MovePicker) : MovePicker :=
  let p1 := scoreMoves { p with buffer := p.board.genAll }
    (ST_BALANCED ||| ST_POLICY ||| ST_MAIN_HISTORY ||| ST_COUNTER_MOVE ||| ST_CONT_HISTORY)
  { p1 with buffer := fastPartialSort maxMoves p1.buffer 0, stage := ALLMOVES }

/-- State after the `DEFENDFIVE_MOVES` case body: generate `DEFEND_FIVE`
only when no TT move was yielded (`!ttMove` in the source); no scoring,
no sorting. -/
def defendFiveState (p : MovePicker) : MovePicker :=
  { p with buffer := if p.ttMove = Pos.NONE then p.board.genDefendFive else [],
           stage := ALLMOVES }

/-- State after the `DEFENDFOUR_MOVES` case body: generate `DEFEND_FOUR`
then append `VCF`, score with `BALANCED | POLICY | MAIN_HISTORY`,
partial-sort at limit 0. -/
def defendFourState (maxMoves : Nat) (p : MovePicker) : MovePicker :=
  let p1 := scoreMoves { p with buffer := p.board.genDefendFour ++ p.board.genVcf }
    (ST_BALANCED ||| ST_POLICY ||| ST_MAIN_HISTORY)
  { p1 with buffer := fastPartialSort maxMoves p1.buffer 0, stage := ALLMOVES }

/-- State after the `DEFENDB4F3_MOVES` case body when the rule-qualified
generation is nonempty: append `VCF`, score `BALANCED | POLICY |
MAIN_HISTORY`, partial-sort at limit 0. -/
def defendB4F3State (maxMoves : Nat) (p : MovePicker) : MovePicker :=
  let p1 := scoreMoves { p with buffer := p.board.genDefendB4F3 p.rule ++ p.board.genVcf }
    (ST_BALANCED ||| ST_POLICY ||| ST_MAIN_HISTORY)
  { p1 with buffer := fastPartialSort maxMoves p1.buffer 0, stage := ALLMOVES }

/-- State after the `QVCF_MOVES` case body: neighborhood-restricted VCF
generation seeded at the self side's last actual move, the `VCF | COMB`
variant unless `allowPlainB4InVCF`; score `BALANCED`, partial-sort at
limit 0. -/
def qvcfMovesState (maxMoves : Nat) (p : MovePicker) : MovePicker :=
  let selfLast := p.board.getLastActualMoveOfSide p.board.sideToMove
  let gen := if p.allowPlainB4InVCF then p.board.genNeighborsVcf selfLast
             else p.board.genNeighborsVcfComb selfLast
  let p1 := scoreMoves { p with buffer := gen } ST_BALANCED
  { p1 with buffer := fastPartialSort maxMoves p1.buffer 0, stage := ALLMOVES }

/-- The state reached at the `ALLMOVES` label when `operator()` is
entered at a `*_MOVES` stage: the corresponding case body has run
(including the `DEFENDB4F3_MOVES` jump to the `MAIN_MOVES` body when its
generation is empty). -/
def movesState (maxMoves : Nat) (p : MovePicker) : MovePicker :=
  if p.stage = MAIN_MOVES then mainMovesState maxMoves p
  else if p.stage = DEFENDFIVE_MOVES then defendFiveState p
  else if p.stage = DEFENDFOUR_MOVES then defendFourState maxMoves p
  else if p.stage = DEFENDB4F3_MOVES then
    (if p.board.genDefendB4F3 p.rule = [] then mainMovesState maxMoves p
     else defendB4F3State maxMoves p)
  else qvcfMovesState maxMoves p

/-- `MovePicker::operator()`: one streaming call.  A `*_TT` stage emits
the stored TT move and advances the stage by one; each `*_MOVES` stage
builds its buffer and falls through into the `ALLMOVES` pick;
`DEFENDB4F3_MOVES` jumps to the `MAIN_MOVES` body when its generation is
empty; an unknown stage is the unreachable `assert(false)` path returning
`NONE`. -/
def pick (maxMoves : Nat) (p : MovePicker) : Pos × MovePicker :=
  if isTTStage p.stage then (p.ttMove, { p with stage := p.stage + 1 })
  else if p.stage = MAIN_MOVES then pickNextMove (mainMovesState maxMoves p)
  else if p.stage = DEFENDFIVE_MOVES then pickNextMove (defendFiveState p)
  else if p.stage = DEFENDFOUR_MOVES then pickNextMove (defendFourState maxMoves p)
  else if p.stage = DEFENDB4F3_MOVES then
    (if p.board.genDefendB4F3 p.rule = [] then pickNextMove (mainMovesState maxMoves p)
     else pickNextMove (defendB4F3State maxMoves p))
  else if p.stage = QVCF_MOVES then pickNextMove (qvcfMovesState maxMoves p)
  else if p.stage = ALLMOVES then pickNextMove p
  else (Pos.NONE, p)

/-- The results of `n` successive streaming calls. -/
def runPicker (maxMoves : Nat) : Nat → MovePicker → List Pos
  | 0, _ => []
  | n + 1, p => (pick maxMoves p).1 :: runPicker maxMoves n (pick maxMoves p).2

/-! ## Constructors -/

/-- Trivial main history (the source passes `nullptr` where the history
is never consulted). -/
def zeroMainHistory : MainHistory := fun _ _ _ => 0

/-- Trivial counter-move history. -/
def zeroCMHistory : CounterMoveHistory := fun _ _ => (Pos.NONE, 0)

/-- The ROOT constructor's buffer (movepick.cpp lines 81-121): the
threat-topology dispatch fills the buffer with one generation kind (or
the dispatched combination); no scoring or sorting. -/
def rootGen (rule : Rule) (board : Board) : List Move :=
  if board.p4Count board.sideToMove A_FIVE ≠ 0 then board.genWinning
  else if board.p4Count board.sideToMove.opp A_FIVE ≠ 0 then board.genDefendFive
  else if board.p4Count board.sideToMove B_FLEX4 ≠ 0 then board.genWinning
  else if board.p4Count board.sideToMove.opp B_FLEX4 ≠ 0 then
    board.genDefendFourAll ++ board.genVcf
  else if board.p4Count board.sideToMove.opp C_BLOCK4_FLEX3 ≠ 0 &&
          (decide (rule ≠ Rule.RENJU) || board.validateOpponentCMove) then
    (if board.genDefendB4F3 rule = [] then board.genAll
     else board.genDefendB4F3 rule ++ board.genVcf)
  else board.genAll

/-- The ROOT constructor's picker object. -/
def rootPicker (rule : Rule) (board : Board) : MovePicker :=
  { board := board, mainHistory := zeroMainHistory, counterMoveHistory := zeroCMHistory,
    stage := ALLMOVES, rule := rule, ttMove := Pos.NONE,
    allowPlainB4InVCF := false, hasPolicy := false, buffer := rootGen rule board }

/-- The MAIN constructor's threat dispatch (movepick.cpp lines 138-157):
the initial stage and the dispatch-specific TT-validity test, before the
emptiness conjunction. -/
def mainDispatch (rule : Rule) (board : Board) (ttMoveArg : Pos) : Nat × Bool :=
  if board.p4Count board.sideToMove.opp A_FIVE ≠ 0 then
    (DEFENDFIVE_TT,
      decide ((board.cell ttMoveArg).pattern4 board.sideToMove.opp = A_FIVE))
  else if board.p4Count board.sideToMove.opp B_FLEX4 ≠ 0 then
    (DEFENDFOUR_TT,
      decide (E_BLOCK4 ≤ (board.cell ttMoveArg).pattern4 Color.BLACK) ||
        decide ((board.cell ttMoveArg).pattern4 Color.BLACK = FORBID) ||
        decide (E_BLOCK4 ≤ (board.cell ttMoveArg).pattern4 Color.WHITE))
  else if board.p4Count board.sideToMove.opp C_BLOCK4_FLEX3 ≠ 0 &&
          (decide (rule ≠ Rule.RENJU) || board.validateOpponentCMove) then
    (DEFENDB4F3_TT, true)
  else (MAIN_TT, true)

/-- The MAIN constructor (movepick.cpp lines 124-164): dispatch, then
conjoin TT validity with `isEmpty(ttMove)`, advance the stage by
`!ttmValid`, and store the TT move or `NONE`. -/
def mainPicker (rule : Rule) (board : Board) (ttMoveArg : Pos)
    (mh : MainHistory) (cmh : CounterMoveHistory) : MovePicker :=
  let d := mainDispatch rule board ttMoveArg
  let ttmValid := d.2 && board.isEmpty ttMoveArg
  { board := board, mainHistory := mh, counterMoveHistory := cmh,
    stage := d.1 + (if ttmValid then 0 else 1), rule := rule,
    ttMove := if ttmValid then ttMoveArg else Pos.NONE,
    allowPlainB4InVCF := false, hasPolicy := false, buffer := [] }

/-- `DEPTH_QVCF_FULL` (search constant outside this repository slice;
its value is irrelevant to every claim, only the comparison against the
given depth matters). -/
def DEPTH_QVCF_FULL : Int := 0

/-- The QVCF constructor's dispatch (movepick.cpp lines 181-188). -/
def qvcfDispatch (board : Board) (ttMoveArg : Pos) : Nat × Bool :=
  if board.p4Count board.sideToMove.opp A_FIVE ≠ 0 then
    (DEFENDFIVE_TT,
      decide ((board.cell ttMoveArg).pattern4 board.sideToMove.opp = A_FIVE))
  else
    (QVCF_TT, decide (E_BLOCK4 ≤ (board.cell ttMoveArg).pattern4 board.sideToMove))

/-- The QVCF constructor (movepick.cpp lines 167-195). -/
def qvcfPicker (rule : Rule) (board : Board) (ttMoveArg : Pos) (depth : Int)
    (prevSelfP40 prevSelfP41 : Pattern4) : MovePicker :=
  let d := qvcfDispatch board ttMoveArg
  let ttmValid := d.2 && board.isEmpty ttMoveArg
  { board := board, mainHistory := zeroMainHistory, counterMoveHistory := zeroCMHistory,
    stage := d.1 + (if ttmValid then 0 else 1), rule := rule,
    ttMove := if ttmValid then ttMoveArg else Pos.NONE,
    allowPlainB4InVCF :=
      decide (DEPTH_QVCF_FULL ≤ depth) ||
        (decide (D_BLOCK4_PLUS ≤ prevSelfP40) && decide (D_BLOCK4_PLUS ≤ prevSelfP41)),
    hasPolicy := false, buffer := [] }

/-! ## Evaluation-order variants for the cell lookup (claim C10)

The MAIN and QVCF constructors evaluate `board.cell(args.ttMove)` inside
their dispatch branches, before the `isEmpty` conjunction.  To express
that evaluation order, these variants thread a possibly-partial cell
accessor: the construction is undefined (`none`) exactly when a dispatch
branch demands a cell the accessor does not supply. -/

/-- MAIN construction with an explicit, possibly-partial cell accessor. -/
def mainPickerChecked (rule : Rule) (board : Board) (cellOpt : Pos → Option Cell)
    (ttMoveArg : Pos) (mh : MainHistory) (cmh : CounterMoveHistory) : Option MovePicker :=
  Option.map
    (fun d : Nat × Bool =>
      { board := board, mainHistory := mh, counterMoveHistory := cmh,
        stage := d.1 + (if d.2 && board.isEmpty ttMoveArg then 0 else 1), rule := rule,
        ttMove := if d.2 && board.isEmpty ttMoveArg then ttMoveArg else Pos.NONE,
        allowPlainB4InVCF := false, hasPolicy := false, buffer := [] })
    (if board.p4Count board.sideToMove.opp A_FIVE ≠ 0 then
      (cellOpt ttMoveArg).map fun c =>
        (DEFENDFIVE_TT, decide (c.pattern4 board.sideToMove.opp = A_FIVE))
    else if board.p4Count board.sideToMove.opp B_FLEX4 ≠ 0 then
      (cellOpt ttMoveArg).map fun c =>
        (DEFENDFOUR_TT,
          decide (E_BLOCK4 ≤ c.pattern4 Color.BLACK) ||
            decide (c.pattern4 Color.BLACK = FORBID) ||
            decide (E_BLOCK4 ≤ c.pattern4 Color.WHITE))
    else if board.p4Count board.sideToMove.opp C_BLOCK4_FLEX3 ≠ 0 &&
            (decide (rule ≠ Rule.RENJU) || board.validateOpponentCMove) then
      some (DEFENDB4F3_TT, true)
    else some (MAIN_TT, true))

/-- QVCF construction with an explicit, possibly-partial cell accessor;
both dispatch branches demand the TT move's cell. -/
def qvcfPickerChecked (rule : Rule) (board : Board) (cellOpt : Pos → Option Cell)
    (ttMoveArg : Pos) (depth : Int) (prevSelfP40 prevSelfP41 : Pattern4) :
    Option MovePicker :=
  Option.map
    (fun d : Nat × Bool =>
      { board := board, mainHistory := zeroMainHistory, counterMoveHistory := zeroCMHistory,
        stage := d.1 + (if d.2 && board.isEmpty ttMoveArg then 0 else 1), rule := rule,
        ttMove := if d.2 && board.isEmpty ttMoveArg then ttMoveArg else Pos.NONE,
        allowPlainB4InVCF :=
          decide (DEPTH_QVCF_FULL ≤ depth) ||
            (decide (D_BLOCK4_PLUS ≤ prevSelfP40) && decide (D_BLOCK4_PLUS ≤ prevSelfP41)),
        hasPolicy := false, buffer := [] })
    (if board.p4Count board.sideToMove.opp A_FIVE ≠ 0 then
      (cellOpt ttMoveArg).map fun c =>
        (DEFENDFIVE_TT, decide (c.pattern4 board.sideToMove.opp = A_FIVE))
    else
      (cellOpt ttMoveArg).map fun c =>
        (QVCF_TT, decide (E_BLOCK4 ≤ c.pattern4 board.sideToMove)))

/-! ## Derived notions used by the theorems -/

/-- The stream of positions produced from a fixed list of accepted
yields: its first elements in order, padded with `NONE` once exhausted;
`streamOf ys n` is the result of `n` successive calls. -/
def streamOf (ys : List Pos) (n : Nat) : List Pos :=
  ys.take n ++ List.replicate (n - ys.length) Pos.NONE

/-- Boundedness of the external move generators, as required by the spec
invariant that the buffer capacity `MAX_MOVES` bounds any single stage's
generated list; each field bounds one buffer-filling expression of
movepick.cpp. -/
structure GenBounded (b : Board) (maxMoves : Nat) : Prop where
  winning : b.genWinning.length ≤ maxMoves
  defendFive : b.genDefendFive.length ≤ maxMoves
  defendFourAllVcf : (b.genDefendFourAll ++ b.genVcf).length ≤ maxMoves
  defendFourVcf : (b.genDefendFour ++ b.genVcf).length ≤ maxMoves
  defendB4F3Vcf : ∀ r, (b.genDefendB4F3 r ++ b.genVcf).length ≤ maxMoves
  allGen : b.genAll.length ≤ maxMoves
  neighborsVcf : ∀ q, (b.genNeighborsVcf q).length ≤ maxMoves
  neighborsVcfComb : ∀ q, (b.genNeighborsVcfComb q).length ≤ maxMoves

/-- Exhaustion within the claimed bound: after `maxMoves + 2` calls the
last result is `NONE`, and at most `maxMoves + 1` of the results are
moves. -/
def exhaustsBound (maxMoves : Nat) (p : MovePicker) : Prop :=
  (runPicker maxMoves (maxMoves + 2) p).getLast? = some Pos.NONE ∧
    (runPicker maxMoves (maxMoves + 2) p).countP (fun q => decide (q ≠ Pos.NONE)) ≤ maxMoves + 1

/-! ## Concrete instances

Small boards and pickers used to evaluate the model at specific inputs. -/

/-- A cell with no threats and zero static scores. -/
def emptyCell : Cell := { pattern4 := fun _ => 0, score := fun _ => 0 }

/-- A quiet baseline board: Black to move, every real cell empty, no
threats anywhere, all generators empty.  `isEmpty`/`isInBoard` are false
at the `NONE` sentinel, which is not a legal cell. -/
def baseBoard : Board where
  sideToMove := Color.BLACK
  cell := fun _ => emptyCell
  isEmpty := fun q => match q with | Pos.NONE => false | Pos.cellAt _ _ => true
  isInBoard := fun q => match q with | Pos.NONE => false | Pos.cellAt _ _ => true
  p4Count := fun _ _ => 0
  getLastMove := Pos.NONE
  getLastActualMoveOfSide := fun _ => Pos.NONE
  checkForbiddenPoint := fun _ => false
  validateOpponentCMove := true
  evaluator := none
  genWinning := []
  genDefendFive := []
  genDefendFour := []
  genDefendFourAll := []
  genVcf := []
  genAll := []
  genDefendB4F3 := fun _ => []
  genNeighborsVcf := fun _ => []
  genNeighborsVcfComb := fun _ => []

/-- The ascending-score buffer of length 18 used against claim C1: with
`MAX_MOVES = 24` the partial-sort branch is taken (18 > 16 = 24·2/3). -/
def ascC1 : List Move :=
  (List.range 18).map fun i => { pos := Pos.cellAt i 0, score := (i : Int) + 1, rawScore := 0 }

/-- The forbidden point used against claim C2. -/
def posC2 : Pos := Pos.cellAt 7 7

/-- Renju board for claim C2: Black to move, White threatens an open four
(`p4Count(WHITE, B_FLEX4) = 1`), and `posC2` is an empty cell classified
`FORBID` for Black and actually forbidden. -/
def boardC2 : Board :=
  { baseBoard with
    p4Count := fun c pat => if c = Color.WHITE ∧ pat = B_FLEX4 then 1 else 0
    cell := fun q =>
      if q = posC2 then
        { pattern4 := fun c => if c = Color.BLACK then FORBID else 0, score := fun _ => 0 }
      else emptyCell
    checkForbiddenPoint := fun q => q = posC2 }

/-- The MAIN picker of claim C2: constructed under RENJU with `posC2` as
the caller's TT move. -/
def pickerC2 : MovePicker := mainPicker Rule.RENJU boardC2 posC2 zeroMainHistory zeroCMHistory

/-- The TT move used for claims C4 and C9. -/
def posC4 : Pos := Pos.cellAt 3 4

/-- Board for claim C4: no threats, so the MAIN dispatch lands on
`MAIN_TT` with an unconditionally valid (and empty) TT move. -/
def boardC4 : Board :=
  { baseBoard with genAll := [{ pos := Pos.cellAt 1 1, score := 0, rawScore := 0 }] }

/-- The MAIN picker of claim C4. -/
def pickerC4 : MovePicker := mainPicker Rule.FREESTYLE boardC4 posC4 zeroMainHistory zeroCMHistory

/-- The caller's TT move of claim C6. -/
def posC6 : Pos := Pos.cellAt 5 5

/-- Board for claim C6: White threatens an open four, the empty cell
`posC6` fails the `DEFENDFOUR_TT` validity test (no pattern at or above
`E_BLOCK4`, not `FORBID`), yet reappears in the `DEFEND_FOUR`
generation. -/
def boardC6 : Board :=
  { baseBoard with
    p4Count := fun c pat => if c = Color.WHITE ∧ pat = B_FLEX4 then 1 else 0
    genDefendFour := [{ pos := posC6, score := 0, rawScore := 0 }] }

/-- The MAIN picker of claim C6, constructed with the invalid TT move. -/
def pickerC6 : MovePicker := mainPicker Rule.FREESTYLE boardC6 posC6 zeroMainHistory zeroCMHistory

/-- The cell position scored in claims C3 and C7. -/
def posC3 : Pos := Pos.cellAt 2 2

/-- Board for claim C3: the scored cell has static scores 9 for the side
to move and 0 for the opponent. -/
def boardC3 : Board :=
  { baseBoard with
    cell := fun q =>
      if q = posC3 then
        { pattern4 := fun _ => 0,
          score := fun c => if c = Color.BLACK then 9 else 0 }
      else emptyCell }

/-- A picker over `boardC3` whose buffer holds the single unscored move
at `posC3`. -/
def pickerC3 : MovePicker :=
  { board := boardC3, mainHistory := zeroMainHistory, counterMoveHistory := zeroCMHistory,
    stage := ALLMOVES, rule := Rule.FREESTYLE, ttMove := Pos.NONE,
    allowPlainB4InVCF := false, hasPolicy := false,
    buffer := [{ pos := posC3, score := 0, rawScore := 0 }] }

/-- Board for claim C7: the scored cell has base score 5 and pattern4
class `H_FLEX3` for the side to move. -/
def boardC7 : Board :=
  { baseBoard with
    cell := fun q =>
      if q = posC3 then
        { pattern4 := fun c => if c = Color.BLACK then H_FLEX3 else 0,
          score := fun c => if c = Color.BLACK then 5 else 0 }
      else emptyCell }

/-- Main history for claim C7: the ATTACK slot of the scored position
holds -255, on which truncating division and arithmetic shift differ. -/
def histC7 : MainHistory :=
  fun c q k =>
    if c = Color.BLACK ∧ q = posC3 ∧ k = HistKind.attack then -255 else 0

/-- A picker over `boardC7` with `histC7`, buffer holding the single
unscored move at `posC3`. -/
def pickerC7 : MovePicker :=
  { board := boardC7, mainHistory := histC7, counterMoveHistory := zeroCMHistory,
    stage := ALLMOVES, rule := Rule.FREESTYLE, ttMove := Pos.NONE,
    allowPlainB4InVCF := false, hasPolicy := false,
    buffer := [{ pos := posC3, score := 0, rawScore := 0 }] }

/-- A picker at `ALLMOVES` with a two-move buffer, used as a witness
state for the streaming theorems. -/
def pickerW : MovePicker :=
  { board := baseBoard, mainHistory := zeroMainHistory, counterMoveHistory := zeroCMHistory,
    stage := ALLMOVES, rule := Rule.RENJU, ttMove := Pos.cellAt 0 0,
    allowPlainB4InVCF := false, hasPolicy := false,
    buffer := [{ pos := Pos.cellAt 0 0, score := 7, rawScore := 6 },
               { pos := Pos.cellAt 1 1, score := 3, rawScore := 2 }] }

/-- Board for the DEFEND_FIVE witness of claim C8: White threatens a
five, defended only at `(9, 9)`. -/
def boardC8 : Board :=
  { baseBoard with
    p4Count := fun c pat => if c = Color.WHITE ∧ pat = A_FIVE then 1 else 0
    genDefendFive := [{ pos := Pos.cellAt 9 9, score := 0, rawScore := 0 }] }

/-- A picker at `DEFENDFIVE_MOVES` with no TT move (the invalid-TT path
of the MAIN constructor over `boardC8`). -/
def pickerC8 : MovePicker :=
  mainPicker Rule.FREESTYLE boardC8 Pos.NONE zeroMainHistory zeroCMHistory

/-- A picker at `DEFENDFIVE_MOVES` whose TT move was yielded. -/
def pickerC8tt : MovePicker :=
  { board := boardC8, mainHistory := zeroMainHistory, counterMoveHistory := zeroCMHistory,
    stage := DEFENDFIVE_MOVES, rule := Rule.FREESTYLE, ttMove := Pos.cellAt 9 9,
    allowPlainB4InVCF := false, hasPolicy := false, buffer := [] }

/-! # Theorems

## The partial sorter -/

theorem insertDesc_perm (e : Move) : ∀ l : List Move, (insertDesc e l).Perm (e :: l)
  | [] => List.Perm.refl _
  | x :: xs => by
    unfold insertDesc
    split
    · exact List.Perm.refl _
    · exact (List.Perm.cons x (insertDesc_perm e xs)).trans (List.Perm.swap e x xs)

theorem insertDesc_sorted (e : Move) :
    ∀ {l : List Move}, l.Pairwise descBy → (insertDesc e l).Pairwise descBy := by
  intro l
  induction l with
  | nil => intro _; simp [insertDesc]
  | cons x xs ih =>
    intro h
    obtain ⟨hx, hxs⟩ := List.pairwise_cons.mp h
    unfold insertDesc
    split
    case isTrue hlt =>
      refine List.pairwise_cons.mpr ⟨?_, h⟩
      intro y hy
      rcases List.mem_cons.mp hy with rfl | hy'
      · exact le_of_lt hlt
      · exact le_trans (hx y hy') (le_of_lt hlt)
    case isFalse hge =>
      refine List.pairwise_cons.mpr ⟨?_, ih hxs⟩
      intro y hy
      have hy' : y ∈ e :: xs := (insertDesc_perm e xs).subset hy
      rcases List.mem_cons.mp hy' with rfl | hy''
      · exact not_lt.mp hge
      · exact hx y hy''

theorem sortDesc_perm (l : List Move) : (sortDesc l).Perm l := by
  induction l with
  | nil => exact List.Perm.refl _
  | cons x xs ih => exact (insertDesc_perm x (sortDesc xs)).trans (List.Perm.cons x ih)

theorem sortDesc_sorted (l : List Move) : (sortDesc l).Pairwise descBy := by
  induction l with
  | nil => exact List.Pairwise.nil
  | cons x xs ih => exact insertDesc_sorted x ih

theorem dropWhile_score_lt (limit : Score) :
    ∀ {l : List Move}, l.Pairwise descBy →
      ∀ x ∈ l.dropWhile (fun m => decide (limit ≤ m.score)), x.score < limit := by
  intro l
  induction l with
  | nil => intro _ x hx; simp [List.dropWhile] at hx
  | cons a t ih =>
    intro h x hx
    obtain ⟨ha, ht⟩ := List.pairwise_cons.mp h
    rw [List.dropWhile_cons] at hx
    by_cases hq : limit ≤ a.score
    · rw [if_pos (by simpa using hq)] at hx
      exact ih ht x hx
    · rw [if_neg (by simpa using hq)] at hx
      rcases List.mem_cons.mp hx with rfl | hx'
      · exact not_le.mp hq
      · exact lt_of_le_of_lt (ha x hx') (not_le.mp hq)

theorem sortSpec_of_sorted_append (limit : Score) {s t : List Move}
    (hs : s.Pairwise descBy) (ht : ∀ m ∈ t, m.score < limit) :
    sortSpecProp limit (s ++ t) := by
  refine ⟨s.takeWhile (fun m => decide (limit ≤ m.score)),
          s.dropWhile (fun m => decide (limit ≤ m.score)) ++ t, ?_, ?_, ?_, ?_⟩
  · rw [← List.append_assoc, List.takeWhile_append_dropWhile]
  · intro m hm
    simpa using List.mem_takeWhile_imp hm
  · intro m hm
    rcases List.mem_append.mp hm with h | h
    · exact dropWhile_score_lt limit hs m h
    · exact ht m h
  · exact List.Pairwise.sublist (List.takeWhile_sublist _) hs

theorem sortSpec_of_sorted (limit : Score) {l : List Move} (h : l.Pairwise descBy) :
    sortSpecProp limit l := by
  have := sortSpec_of_sorted_append limit h (t := []) (by intro m hm; simp at hm)
  simpa using this

theorem insertionLoop_split (limit : Score) :
    ∀ (rest sorted pending : List Move), sorted.Pairwise descBy →
      (∀ m ∈ pending, m.score < limit) →
      ∃ s t, insertionLoop limit sorted pending rest = s ++ t ∧
        s.Pairwise descBy ∧ ∀ m ∈ t, m.score < limit
  | [], sorted, pending, hs, hp => ⟨sorted, pending, rfl, hs, hp⟩
  | e :: es, sorted, pending, hs, hp => by
    unfold insertionLoop
    split
    case isTrue hq =>
      cases pending with
      | nil =>
        exact insertionLoop_split limit es _ [] (insertDesc_sorted e hs)
          (by intro m hm; simp at hm)
      | cons d ds =>
        refine insertionLoop_split limit es _ _ (insertDesc_sorted e hs) ?_
        intro m hm
        rcases List.mem_append.mp hm with h | h
        · exact hp m (List.mem_cons_of_mem d h)
        · rw [List.mem_singleton] at h
          rw [h]
          exact hp d (List.mem_cons_self d ds)
    case isFalse hq =>
      refine insertionLoop_split limit es sorted _ hs ?_
      intro m hm
      rcases List.mem_append.mp hm with h | h
      · exact hp m h
      · rw [List.mem_singleton] at h
        rw [h]
        exact not_le.mp hq

theorem insertionSortPart_sortSpec (limit : Score) (l : List Move) :
    sortSpecProp limit (insertionSortPart limit l) := by
  cases l with
  | nil =>
    exact ⟨[], [], rfl, by intro m hm; simp at hm, by intro m hm; simp at hm,
      List.Pairwise.nil⟩
  | cons a t =>
    obtain ⟨s, t', heq, hsort, hlt⟩ :=
      insertionLoop_split limit t [a] [] (List.pairwise_singleton descBy a)
        (by intro m hm; simp at hm)
    rw [insertionSortPart, heq]
    exact sortSpec_of_sorted_append limit hsort hlt

theorem count_diff_eq (x : Move) :
    ∀ (fr l : List Move), (l.diff fr).count x = l.count x - fr.count x
  | [], l => by simp
  | f :: fr, l => by
    rw [List.diff_cons, count_diff_eq x fr (l.erase f), List.count_erase]
    by_cases hf : f = x
    · subst hf
      simp [List.count_cons]
      omega
    · rw [if_neg (by simpa using hf)]
      rw [List.count_cons]
      simp [hf]

theorem filter_eq_takeWhile_of_sorted (limit : Score) {l : List Move}
    (h : l.Pairwise descBy) :
    l.filter (fun m => decide (limit ≤ m.score)) =
      l.takeWhile (fun m => decide (limit ≤ m.score)) := by
  conv_lhs =>
    rw [← List.takeWhile_append_dropWhile (p := fun m => decide (limit ≤ m.score)) (l := l)]
  rw [List.filter_append]
  rw [List.filter_eq_self.mpr
    (fun a ha => List.mem_takeWhile_imp (p := fun m : Move => decide (limit ≤ m.score)) ha)]
  rw [List.filter_eq_nil_iff.mpr ?_, List.append_nil]
  intro a ha
  simpa using not_le.mpr (dropWhile_score_lt limit h a ha)

theorem partSortDesc_sortSpec (limit : Score) (m : Nat) (l : List Move)
    (hk : (l.filter (fun x => decide (limit ≤ x.score))).length ≤ m) :
    sortSpecProp limit (partSortDesc m l) := by
  have hsorted : ((sortDesc l).take m).Pairwise descBy :=
    List.Pairwise.sublist (List.take_sublist m (sortDesc l)) (sortDesc_sorted l)
  have htail : ∀ x ∈ l.diff ((sortDesc l).take m), x.score < limit := by
    intro x hx
    by_contra hge
    have hq : limit ≤ x.score := not_lt.mp hge
    set Q : Move → Bool := fun y => decide (limit ≤ y.score) with hQ
    set S := sortDesc l with hS
    set front := S.take m with hfront
    -- the qualifying elements of the sorted list form its `takeWhile` part
    have hfilter : S.filter Q = S.takeWhile Q :=
      filter_eq_takeWhile_of_sorted limit (sortDesc_sorted l)
    have hklen : (S.takeWhile Q).length ≤ m := by
      rw [← hfilter]
      calc (S.filter Q).length = (l.filter Q).length :=
            ((sortDesc_perm l).filter Q).length_eq
        _ ≤ m := hk
    -- `takeWhile Q S` is an initial segment of `front`
    have htw_pre := List.takeWhile_prefix Q (l := S)
    have htw_take : S.takeWhile Q = S.take (S.takeWhile Q).length :=
      List.prefix_iff_eq_take.mp htw_pre
    have htw_sub : List.Sublist (S.takeWhile Q) front := by
      have : S.takeWhile Q = front.take (S.takeWhile Q).length := by
        rw [hfront, List.take_take, Nat.min_eq_left hklen, ← htw_take]
      rw [this]
      exact List.take_sublist _ front
    -- hence every occurrence of the qualifying `x` in `l` is in `front`
    have hc1 : S.count x ≤ front.count x := by
      have hx_tw : (S.takeWhile Q).count x = S.count x := by
        rw [← hfilter]
        exact List.count_filter (by simpa [hQ] using hq)
      calc S.count x = (S.takeWhile Q).count x := hx_tw.symm
        _ ≤ front.count x := htw_sub.count_le x
    have hc2 : front.count x ≤ S.count x :=
      (List.take_sublist m S).count_le x
    have hcS : S.count x = l.count x := (sortDesc_perm l).count_eq x
    -- but `x` also occurs in the leftover, contradiction
    have hpos : 0 < (l.diff front).count x := List.count_pos_iff.mpr hx
    rw [count_diff_eq x front l] at hpos
    omega
  have heq : partSortDesc m l = (sortDesc l).take m ++ l.diff ((sortDesc l).take m) := rfl
  rw [heq]
  exact sortSpec_of_sorted_append limit hsorted htail

theorem length_insertDesc (e : Move) (l : List Move) :
    (insertDesc e l).length = l.length + 1 := by
  simpa using (insertDesc_perm e l).length_eq

theorem length_insertionLoop (limit : Score) :
    ∀ (rest sorted pending : List Move),
      (insertionLoop limit sorted pending rest).length =
        sorted.length + pending.length + rest.length
  | [], s, p => by simp [insertionLoop]
  | e :: es, s, p => by
    unfold insertionLoop
    split
    case isTrue h =>
      cases p with
      | nil =>
        rw [length_insertionLoop limit es _ []]
        simp [length_insertDesc]
        omega
      | cons d ds =>
        rw [length_insertionLoop limit es _ _]
        simp [length_insertDesc]
        omega
    case isFalse h =>
      rw [length_insertionLoop limit es _ _]
      simp
      omega

theorem length_insertionSortPart (limit : Score) (l : List Move) :
    (insertionSortPart limit l).length = l.length := by
  cases l with
  | nil => rfl
  | cons a t =>
    rw [insertionSortPart, length_insertionLoop]
    simp
    omega

theorem length_sortDesc (l : List Move) : (sortDesc l).length = l.length :=
  (sortDesc_perm l).length_eq

theorem length_diff_add (fr : List Move) :
    ∀ l : List Move, List.Subperm fr l → (l.diff fr).length + fr.length = l.length := by
  induction fr with
  | nil => intro l _; simp
  | cons a fr ih =>
    intro l h
    rw [List.diff_cons]
    have ha : a ∈ l := h.subset (List.mem_cons_self a fr)
    have h2 : List.Subperm fr (l.erase a) := by
      obtain ⟨w, hw, hsub⟩ := h
      refine ⟨w.erase a, ?_, hsub.erase a⟩
      have := hw.erase a
      rwa [List.erase_cons_head] at this
    have hrec := ih (l.erase a) h2
    rw [List.length_erase_of_mem ha] at hrec
    have hpos : 0 < l.length := List.length_pos_of_mem ha
    simp only [List.length_cons]
    omega

theorem length_partSortDesc (m : Nat) (l : List Move) :
    (partSortDesc m l).length = l.length := by
  have hsub : List.Subperm ((sortDesc l).take m) l :=
    ((List.take_sublist m (sortDesc l)).subperm).trans (sortDesc_perm l).subperm
  have hadd := length_diff_add ((sortDesc l).take m) l hsub
  show ((sortDesc l).take m ++ l.diff ((sortDesc l).take m)).length = l.length
  simp only [List.length_append]
  omega

theorem length_fastPartialSort (maxMoves : Nat) (l : List Move) (limit : Score) :
    (fastPartialSort maxMoves l limit).length = l.length := by
  unfold fastPartialSort
  split
  · exact length_insertionSortPart limit l
  · split
    · exact length_sortDesc l
    · exact length_partSortDesc _ l

/-- C1, amended: `fastPartialSort` establishes the claimed output
condition for every range length up to `MAX_MOVES / 4` and up to
`2·MAX_MOVES/3` (the insertion-sort and full-sort branches), and in the
partial-sort branch whenever at most `2·MAX_MOVES/3` elements score at
least the limit; when more do, qualifying elements can be left in the
unsorted tail (see the counterexample). -/
theorem c1_amended (maxMoves : Nat) (limit : Score) (l : List Move)
    (_hlen : l.length ≤ maxMoves)
    (hcase : l.length ≤ maxMoves * 2 / 3 ∨
      (l.filter (fun x => decide (limit ≤ x.score))).length ≤ maxMoves * 2 / 3) :
    sortSpecProp limit (fastPartialSort maxMoves l limit) := by
  unfold fastPartialSort
  split
  case isTrue h => exact insertionSortPart_sortSpec limit l
  case isFalse h =>
    split
    case isTrue h2 => exact sortSpec_of_sorted limit (sortDesc_sorted l)
    case isFalse h2 =>
      rcases hcase with hc | hc
      · exact absurd hc h2
      · exact partSortDesc_sortSpec limit _ l hc

/-- C1, counterexample: on the 18-element ascending buffer with
`MAX_MOVES = 24` and limit 0 the partial-sort branch runs, every element
scores at least the limit, yet the output `[18, 17, ..., 3, 1, 2]` is not
descending — the claimed output condition fails. -/
theorem c1_counterexample : ¬ sortSpecProp 0 (fastPartialSort 24 ascC1 0) := by
  intro h
  obtain ⟨hi, lo, heq, hhi, hlo, hsort⟩ := h
  have hall : ∀ x ∈ fastPartialSort 24 ascC1 0, (1 : Int) ≤ x.score := by decide
  cases lo with
  | nil =>
    rw [List.append_nil] at heq
    rw [← heq] at hsort
    have hnot : ¬ (fastPartialSort 24 ascC1 0).Pairwise descBy := by decide
    exact hnot hsort
  | cons a t =>
    have hmem : a ∈ fastPartialSort 24 ascC1 0 := by
      rw [heq]
      exact List.mem_append_right hi (List.mem_cons_self a t)
    have h1 := hall a hmem
    have h2 := hlo a (List.mem_cons_self a t)
    exact absurd (lt_of_le_of_lt h1 h2) (by norm_num)

/-- Witness for C1: the amended theorem applied to a concrete two-element
buffer. -/
theorem c1_witness :
    sortSpecProp 0 (fastPartialSort 24
      [{ pos := Pos.cellAt 0 0, score := -1, rawScore := 0 },
       { pos := Pos.cellAt 1 0, score := 5, rawScore := 0 }] 0) :=
  c1_amended 24 0 _ (by decide) (Or.inl (by decide))

/-! ## Streaming lemmas -/

theorem pickAccept_update (p : MovePicker) (buf : List Move) (cs cps : Option Score) :
    pickAccept { p with buffer := buf, curScore := cs, curPolicyScore := cps } = pickAccept p :=
  rfl

theorem pickScan_of_filter_nil {p : MovePicker} :
    ∀ {l : List Move}, l.filter (pickAccept p) = [] →
      pickScan p l = (Pos.NONE, { p with buffer := [] })
  | [], _ => rfl
  | e :: rest, h => by
    rw [List.filter_cons] at h
    have he : pickAccept p e = false := by
      by_cases hc : pickAccept p e
      · rw [if_pos hc] at h
        exact absurd h (List.cons_ne_nil _ _)
      · simpa using hc
    rw [if_neg (by simp [he])] at h
    show (if pickAccept p e then _ else pickScan p rest) = _
    rw [if_neg (by simp [he])]
    exact pickScan_of_filter_nil h

theorem pickScan_of_filter_cons {p : MovePicker} :
    ∀ {l : List Move} {m : Move} {fl : List Move},
      l.filter (pickAccept p) = m :: fl →
      ∃ rest, pickScan p l = (m.pos, consumeMove p m rest) ∧
        rest.filter (pickAccept p) = fl
  | [], m, fl, h => by simp at h
  | e :: rest, m, fl, h => by
    rw [List.filter_cons] at h
    by_cases hc : pickAccept p e
    · rw [if_pos (by simp [hc])] at h
      injection h with h1 h2
      subst h1
      refine ⟨rest, ?_, h2⟩
      show (if pickAccept p e then _ else pickScan p rest) = _
      rw [if_pos (by simp [hc])]
    · rw [if_neg (by simp [hc])] at h
      obtain ⟨r, hr, hf⟩ := pickScan_of_filter_cons (p := p) (l := rest) h
      refine ⟨r, ?_, hf⟩
      show (if pickAccept p e then _ else pickScan p rest) = _
      rw [if_neg (by simp [hc])]
      exact hr

theorem streamOf_nil (n : Nat) : streamOf [] n = List.replicate n Pos.NONE := by
  simp [streamOf]

theorem streamOf_cons (y : Pos) (ys : List Pos) (n : Nat) :
    streamOf (y :: ys) (n + 1) = y :: streamOf ys n := by
  simp only [streamOf, List.take_succ_cons, List.length_cons, Nat.succ_sub_succ]
  rfl

theorem pick_at_allmoves (maxMoves : Nat) (p : MovePicker) (h : p.stage = ALLMOVES) :
    pick maxMoves p = pickNextMove p := by
  simp [pick, h, isTTStage, MAIN_TT, DEFENDFIVE_TT, DEFENDFOUR_TT, DEFENDB4F3_TT, QVCF_TT,
    MAIN_MOVES, DEFENDFIVE_MOVES, DEFENDFOUR_MOVES, DEFENDB4F3_MOVES, QVCF_MOVES, ALLMOVES]

/-- Streaming from `ALLMOVES` yields exactly the accepted buffer moves in
order, then `NONE` forever. -/
theorem runPicker_allmoves (maxMoves : Nat) :
    ∀ (n : Nat) (p : MovePicker), p.stage = ALLMOVES →
      runPicker maxMoves n p =
        streamOf ((p.buffer.filter (pickAccept p)).map Move.pos) n := by
  intro n
  induction n with
  | zero => intro p _; simp [runPicker, streamOf]
  | succ n ih =>
    intro p hp
    rw [runPicker, pick_at_allmoves maxMoves p hp, pickNextMove]
    cases hfil : p.buffer.filter (pickAccept p) with
    | nil =>
      rw [pickScan_of_filter_nil hfil]
      show Pos.NONE :: runPicker maxMoves n { p with buffer := ([] : List Move) } =
        streamOf (List.map Move.pos []) (n + 1)
      have hstage : ({ p with buffer := ([] : List Move) }).stage = ALLMOVES := hp
      have h2 : runPicker maxMoves n { p with buffer := ([] : List Move) } =
          streamOf ([] : List Pos) n := by
        rw [ih _ hstage]
        rfl
      rw [h2]
      simp [streamOf_nil, List.replicate_succ]
    | cons m fl =>
      obtain ⟨rest, hscan, hrest⟩ := pickScan_of_filter_cons hfil
      rw [hscan]
      show m.pos :: runPicker maxMoves n (consumeMove p m rest) =
        streamOf (List.map Move.pos (m :: fl)) (n + 1)
      have hstage : (consumeMove p m rest).stage = ALLMOVES := hp
      have h2 : runPicker maxMoves n (consumeMove p m rest) =
          streamOf ((rest.filter (pickAccept p)).map Move.pos) n := by
        rw [ih _ hstage]
        rfl
      rw [h2, hrest, List.map_cons, streamOf_cons]

/-! ## Stage-transition lemmas -/

theorem pick_at_tt (maxMoves : Nat) (p : MovePicker) (h : isTTStage p.stage = true) :
    pick maxMoves p = (p.ttMove, { p with stage := p.stage + 1 }) := by
  simp [pick, h]

theorem isTTStage_cases {s : Nat} (h : isTTStage s = true) :
    s = 0 ∨ s = 2 ∨ s = 4 ∨ s = 6 ∨ s = 8 := by
  have := h
  simp [isTTStage, MAIN_TT, DEFENDFIVE_TT, DEFENDFOUR_TT, DEFENDB4F3_TT, QVCF_TT] at this
  tauto

theorem isMovesStage_cases {s : Nat} (h : isMovesStage s = true) :
    s = 1 ∨ s = 3 ∨ s = 5 ∨ s = 7 ∨ s = 9 := by
  have := h
  simp [isMovesStage, MAIN_MOVES, DEFENDFIVE_MOVES, DEFENDFOUR_MOVES, DEFENDB4F3_MOVES,
    QVCF_MOVES] at this
  tauto

theorem ttStage_succ_moves {s : Nat} (h : isTTStage s = true) :
    isMovesStage (s + 1) = true := by
  rcases isTTStage_cases h with rfl | rfl | rfl | rfl | rfl <;> rfl

theorem pick_at_moves_stage (maxMoves : Nat) (p : MovePicker)
    (h : isMovesStage p.stage = true) :
    pick maxMoves p = pickNextMove (movesState maxMoves p) := by
  rcases isMovesStage_cases h with h1 | h1 | h1 | h1 | h1
  · simp [pick, movesState, h1, isTTStage, MAIN_TT, DEFENDFIVE_TT, DEFENDFOUR_TT,
      DEFENDB4F3_TT, QVCF_TT, MAIN_MOVES, DEFENDFIVE_MOVES, DEFENDFOUR_MOVES,
      DEFENDB4F3_MOVES, QVCF_MOVES]
  · simp [pick, movesState, h1, isTTStage, MAIN_TT, DEFENDFIVE_TT, DEFENDFOUR_TT,
      DEFENDB4F3_TT, QVCF_TT, MAIN_MOVES, DEFENDFIVE_MOVES, DEFENDFOUR_MOVES,
      DEFENDB4F3_MOVES, QVCF_MOVES]
  · simp [pick, movesState, h1, isTTStage, MAIN_TT, DEFENDFIVE_TT, DEFENDFOUR_TT,
      DEFENDB4F3_TT, QVCF_TT, MAIN_MOVES, DEFENDFIVE_MOVES, DEFENDFOUR_MOVES,
      DEFENDB4F3_MOVES, QVCF_MOVES]
  · by_cases hg : p.board.genDefendB4F3 p.rule = [] <;>
      simp [pick, movesState, h1, hg, isTTStage, MAIN_TT, DEFENDFIVE_TT, DEFENDFOUR_TT,
        DEFENDB4F3_TT, QVCF_TT, MAIN_MOVES, DEFENDFIVE_MOVES, DEFENDFOUR_MOVES,
        DEFENDB4F3_MOVES, QVCF_MOVES]
  · simp [pick, movesState, h1, isTTStage, MAIN_TT, DEFENDFIVE_TT, DEFENDFOUR_TT,
      DEFENDB4F3_TT, QVCF_TT, MAIN_MOVES, DEFENDFIVE_MOVES, DEFENDFOUR_MOVES,
      DEFENDB4F3_MOVES, QVCF_MOVES]

theorem movesState_stage (maxMoves : Nat) (p : MovePicker) :
    (movesState maxMoves p).stage = ALLMOVES := by
  unfold movesState
  split
  · rfl
  · split
    · rfl
    · split
      · rfl
      · split
        · split
          · rfl
          · rfl
        · rfl

theorem movesState_ttMove (maxMoves : Nat) (p : MovePicker) :
    (movesState maxMoves p).ttMove = p.ttMove := by
  unfold movesState
  split
  · rfl
  · split
    · rfl
    · split
      · rfl
      · split
        · split
          · rfl
          · rfl
        · rfl

theorem movesState_board (maxMoves : Nat) (p : MovePicker) :
    (movesState maxMoves p).board = p.board := by
  unfold movesState
  split
  · rfl
  · split
    · rfl
    · split
      · rfl
      · split
        · split
          · rfl
          · rfl
        · rfl

theorem movesState_rule (maxMoves : Nat) (p : MovePicker) :
    (movesState maxMoves p).rule = p.rule := by
  unfold movesState
  split
  · rfl
  · split
    · rfl
    · split
      · rfl
      · split
        · split
          · rfl
          · rfl
        · rfl

theorem runPicker_congr (maxMoves : Nat) {p q : MovePicker}
    (h : pick maxMoves p = pick maxMoves q) :
    ∀ n, runPicker maxMoves n p = runPicker maxMoves n q
  | 0 => rfl
  | n + 1 => by rw [runPicker, runPicker, h]

theorem runPicker_from_moves (maxMoves : Nat) (n : Nat) (p : MovePicker)
    (h : isMovesStage p.stage = true) :
    runPicker maxMoves n p =
      streamOf (((movesState maxMoves p).buffer.filter
        (pickAccept (movesState maxMoves p))).map Move.pos) n := by
  have hpick : pick maxMoves p = pick maxMoves (movesState maxMoves p) := by
    rw [pick_at_moves_stage maxMoves p h,
      pick_at_allmoves maxMoves _ (movesState_stage maxMoves p)]
  rw [runPicker_congr maxMoves hpick n,
    runPicker_allmoves maxMoves n _ (movesState_stage maxMoves p)]

/-! ## Stream arithmetic -/

theorem length_streamOf (ys : List Pos) (n : Nat) : (streamOf ys n).length = n := by
  simp only [streamOf, List.length_append, List.length_take, List.length_replicate]
  omega

theorem getLast?_streamOf {ys : List Pos} {n : Nat} (h : ys.length < n) :
    (streamOf ys n).getLast? = some Pos.NONE := by
  unfold streamOf
  rw [List.getLast?_append, List.getLast?_replicate]
  rw [if_neg (by omega)]
  rfl

theorem countP_streamOf_le (ys : List Pos) (n : Nat) :
    (streamOf ys n).countP (fun q => decide (q ≠ Pos.NONE)) ≤ ys.length := by
  unfold streamOf
  rw [List.countP_append]
  have h1 : (ys.take n).countP (fun q => decide (q ≠ Pos.NONE)) ≤ (ys.take n).length :=
    List.countP_le_length _
  have h2 : (List.replicate (n - ys.length) Pos.NONE).countP
      (fun q => decide (q ≠ Pos.NONE)) = 0 := by
    rw [List.countP_eq_zero]
    intro a ha
    rw [List.eq_of_mem_replicate ha]
    simp
  have h3 : (ys.take n).length ≤ ys.length := by
    rw [List.length_take]
    omega
  omega

theorem getLast?_cons_of_ne_nil (x : Pos) {l : List Pos} (h : l ≠ []) :
    (x :: l).getLast? = l.getLast? := by
  cases l with
  | nil => exact absurd rfl h
  | cons b t => exact List.getLast?_cons_cons

/-! ## Buffer-size bounds -/

theorem mainMovesState_buffer_len (maxMoves : Nat) (p : MovePicker) :
    (mainMovesState maxMoves p).buffer.length = p.board.genAll.length := by
  show (fastPartialSort maxMoves (List.map _ p.board.genAll) 0).length = _
  rw [length_fastPartialSort, List.length_map]

theorem defendFiveState_buffer_len (p : MovePicker) :
    (defendFiveState p).buffer.length ≤ p.board.genDefendFive.length := by
  show (if p.ttMove = Pos.NONE then p.board.genDefendFive else []).length ≤ _
  split
  · exact le_refl _
  · simp

theorem defendFourState_buffer_len (maxMoves : Nat) (p : MovePicker) :
    (defendFourState maxMoves p).buffer.length =
      (p.board.genDefendFour ++ p.board.genVcf).length := by
  show (fastPartialSort maxMoves (List.map _ (p.board.genDefendFour ++ p.board.genVcf))
    0).length = _
  rw [length_fastPartialSort, List.length_map]

theorem defendB4F3State_buffer_len (maxMoves : Nat) (p : MovePicker) :
    (defendB4F3State maxMoves p).buffer.length =
      (p.board.genDefendB4F3 p.rule ++ p.board.genVcf).length := by
  show (fastPartialSort maxMoves
    (List.map _ (p.board.genDefendB4F3 p.rule ++ p.board.genVcf)) 0).length = _
  rw [length_fastPartialSort, List.length_map]

theorem qvcfMovesState_buffer_le (maxMoves : Nat) (p : MovePicker)
    (hb : GenBounded p.board maxMoves) :
    (qvcfMovesState maxMoves p).buffer.length ≤ maxMoves := by
  show (fastPartialSort maxMoves (List.map _
    (if p.allowPlainB4InVCF then
      p.board.genNeighborsVcf (p.board.getLastActualMoveOfSide p.board.sideToMove)
     else
      p.board.genNeighborsVcfComb (p.board.getLastActualMoveOfSide p.board.sideToMove)))
    0).length ≤ maxMoves
  rw [length_fastPartialSort, List.length_map]
  split
  · exact hb.neighborsVcf _
  · exact hb.neighborsVcfComb _

theorem movesState_buffer_le (maxMoves : Nat) (p : MovePicker)
    (hb : GenBounded p.board maxMoves) :
    (movesState maxMoves p).buffer.length ≤ maxMoves := by
  unfold movesState
  split
  · rw [mainMovesState_buffer_len]
    exact hb.allGen
  · split
    · exact le_trans (defendFiveState_buffer_len p) hb.defendFive
    · split
      · rw [defendFourState_buffer_len]
        exact hb.defendFourVcf
      · split
        · split
          · rw [mainMovesState_buffer_len]
            exact hb.allGen
          · rw [defendB4F3State_buffer_len]
            exact hb.defendB4F3Vcf p.rule
        · exact qvcfMovesState_buffer_le maxMoves p hb

theorem rootGen_length_le (rule : Rule) (b : Board) (maxMoves : Nat)
    (hb : GenBounded b maxMoves) : (rootGen rule b).length ≤ maxMoves := by
  unfold rootGen
  split
  · exact hb.winning
  · split
    · exact hb.defendFive
    · split
      · exact hb.winning
      · split
        · exact hb.defendFourAllVcf
        · split
          · split
            · exact hb.allGen
            · exact hb.defendB4F3Vcf rule
          · exact hb.allGen

/-! ## Exhaustion -/

theorem exhausts_of_allmoves (maxMoves : Nat) (p : MovePicker) (h10 : p.stage = ALLMOVES)
    (hlen : p.buffer.length ≤ maxMoves) : exhaustsBound maxMoves p := by
  have hrun := runPicker_allmoves maxMoves (maxMoves + 2) p h10
  have hys : ((p.buffer.filter (pickAccept p)).map Move.pos).length ≤ maxMoves := by
    rw [List.length_map]
    exact le_trans (List.length_filter_le _ _) hlen
  constructor
  · rw [hrun]
    exact getLast?_streamOf (by omega)
  · rw [hrun]
    exact le_trans (countP_streamOf_le _ _) (by omega)

theorem exhausts_of_moves (maxMoves : Nat) (p : MovePicker)
    (h : isMovesStage p.stage = true) (hb : GenBounded p.board maxMoves) :
    exhaustsBound maxMoves p := by
  have hrun := runPicker_from_moves maxMoves (maxMoves + 2) p h
  have hlen := movesState_buffer_le maxMoves p hb
  have hys : (((movesState maxMoves p).buffer.filter
      (pickAccept (movesState maxMoves p))).map Move.pos).length ≤ maxMoves := by
    rw [List.length_map]
    exact le_trans (List.length_filter_le _ _) hlen
  constructor
  · rw [hrun]
    exact getLast?_streamOf (by omega)
  · rw [hrun]
    exact le_trans (countP_streamOf_le _ _) (by omega)

theorem exhausts_of_tt (maxMoves : Nat) (p : MovePicker)
    (h : isTTStage p.stage = true) (hb : GenBounded p.board maxMoves) :
    exhaustsBound maxMoves p := by
  have hstep : runPicker maxMoves (maxMoves + 2) p =
      p.ttMove :: runPicker maxMoves (maxMoves + 1) { p with stage := p.stage + 1 } := by
    rw [show maxMoves + 2 = (maxMoves + 1) + 1 from rfl, runPicker, pick_at_tt maxMoves p h]
  have hmq : isMovesStage ({ p with stage := p.stage + 1 }).stage = true :=
    ttStage_succ_moves h
  have hrunq := runPicker_from_moves maxMoves (maxMoves + 1) { p with stage := p.stage + 1 } hmq
  have hlenq : (movesState maxMoves { p with stage := p.stage + 1 }).buffer.length ≤ maxMoves :=
    movesState_buffer_le maxMoves _ hb
  have hysq : (((movesState maxMoves { p with stage := p.stage + 1 }).buffer.filter
      (pickAccept (movesState maxMoves { p with stage := p.stage + 1 }))).map
        Move.pos).length ≤ maxMoves := by
    rw [List.length_map]
    exact le_trans (List.length_filter_le _ _) hlenq
  constructor
  · rw [hstep]
    have hne : runPicker maxMoves (maxMoves + 1) { p with stage := p.stage + 1 } ≠ [] := by
      intro hc
      have hlen0 := congrArg List.length hc
      rw [hrunq] at hlen0
      rw [length_streamOf] at hlen0
      simp at hlen0
    rw [getLast?_cons_of_ne_nil _ hne, hrunq]
    exact getLast?_streamOf (by omega)
  · rw [hstep, List.countP_cons, hrunq]
    have hc := countP_streamOf_le (((movesState maxMoves
      { p with stage := p.stage + 1 }).buffer.filter
        (pickAccept (movesState maxMoves { p with stage := p.stage + 1 }))).map Move.pos)
      (maxMoves + 1)
    by_cases ht : p.ttMove = Pos.NONE
    · have hcond : ¬ ((fun q => decide (q ≠ Pos.NONE)) p.ttMove = true) := by simp [ht]
      rw [if_neg hcond]
      omega
    · have hcond : (fun q => decide (q ≠ Pos.NONE)) p.ttMove = true := by simp [ht]
      rw [if_pos hcond]
      omega

theorem mainDispatch_stage_tt (rule : Rule) (b : Board) (tt : Pos) :
    isTTStage (mainDispatch rule b tt).1 = true := by
  unfold mainDispatch
  split
  · rfl
  · split
    · rfl
    · split
      · rfl
      · rfl

theorem qvcfDispatch_stage_tt (b : Board) (tt : Pos) :
    isTTStage (qvcfDispatch b tt).1 = true := by
  unfold qvcfDispatch
  split
  · rfl
  · rfl

/-- C5: every picker built by the three constructors exhausts: within
`MAX_MOVES + 2` streaming calls the stream has returned `NONE` (and keeps
returning it), and at most `MAX_MOVES + 1` of the calls yield moves. -/
theorem c5_exhaustion (maxMoves : Nat) (rule : Rule) (b : Board) (tt : Pos)
    (mh : MainHistory) (cmh : CounterMoveHistory) (depth : Int) (v0 v1 : Pattern4)
    (hb : GenBounded b maxMoves) :
    exhaustsBound maxMoves (rootPicker rule b) ∧
      exhaustsBound maxMoves (mainPicker rule b tt mh cmh) ∧
      exhaustsBound maxMoves (qvcfPicker rule b tt depth v0 v1) := by
  refine ⟨?_, ?_, ?_⟩
  · exact exhausts_of_allmoves maxMoves _ rfl (rootGen_length_le rule b maxMoves hb)
  · by_cases hv : ((mainDispatch rule b tt).2 && b.isEmpty tt) = true
    · refine exhausts_of_tt maxMoves _ ?_ hb
      have hstage : (mainPicker rule b tt mh cmh).stage = (mainDispatch rule b tt).1 := by
        show (mainDispatch rule b tt).1 +
            (if ((mainDispatch rule b tt).2 && b.isEmpty tt) = true then 0 else 1) =
          (mainDispatch rule b tt).1
        rw [if_pos hv]
        omega
      rw [hstage]
      exact mainDispatch_stage_tt rule b tt
    · refine exhausts_of_moves maxMoves _ ?_ hb
      have hstage : (mainPicker rule b tt mh cmh).stage = (mainDispatch rule b tt).1 + 1 := by
        show (mainDispatch rule b tt).1 +
            (if ((mainDispatch rule b tt).2 && b.isEmpty tt) = true then 0 else 1) =
          (mainDispatch rule b tt).1 + 1
        rw [if_neg hv]
      rw [hstage]
      exact ttStage_succ_moves (mainDispatch_stage_tt rule b tt)
  · by_cases hv : ((qvcfDispatch b tt).2 && b.isEmpty tt) = true
    · refine exhausts_of_tt maxMoves _ ?_ hb
      have hstage : (qvcfPicker rule b tt depth v0 v1).stage = (qvcfDispatch b tt).1 := by
        show (qvcfDispatch b tt).1 +
            (if ((qvcfDispatch b tt).2 && b.isEmpty tt) = true then 0 else 1) =
          (qvcfDispatch b tt).1
        rw [if_pos hv]
        omega
      rw [hstage]
      exact qvcfDispatch_stage_tt b tt
    · refine exhausts_of_moves maxMoves _ ?_ hb
      have hstage : (qvcfPicker rule b tt depth v0 v1).stage = (qvcfDispatch b tt).1 + 1 := by
        show (qvcfDispatch b tt).1 +
            (if ((qvcfDispatch b tt).2 && b.isEmpty tt) = true then 0 else 1) =
          (qvcfDispatch b tt).1 + 1
        rw [if_neg hv]
      rw [hstage]
      exact ttStage_succ_moves (qvcfDispatch_stage_tt b tt)

theorem pickScan_snd_board (p : MovePicker) :
    ∀ l : List Move, ((pickScan p l).2).board = p.board
  | [] => rfl
  | m :: rest => by
    show ((if pickAccept p m then (m.pos, consumeMove p m rest)
      else pickScan p rest).2).board = p.board
    split
    · rfl
    · exact pickScan_snd_board p rest

theorem pickScan_snd_rule (p : MovePicker) :
    ∀ l : List Move, ((pickScan p l).2).rule = p.rule
  | [] => rfl
  | m :: rest => by
    show ((if pickAccept p m then (m.pos, consumeMove p m rest)
      else pickScan p rest).2).rule = p.rule
    split
    · rfl
    · exact pickScan_snd_rule p rest

theorem pickScan_snd_ttMove (p : MovePicker) :
    ∀ l : List Move, ((pickScan p l).2).ttMove = p.ttMove
  | [] => rfl
  | m :: rest => by
    show ((if pickAccept p m then (m.pos, consumeMove p m rest)
      else pickScan p rest).2).ttMove = p.ttMove
    split
    · rfl
    · exact pickScan_snd_ttMove p rest

theorem pickScan_snd_stage (p : MovePicker) :
    ∀ l : List Move, ((pickScan p l).2).stage = p.stage
  | [] => rfl
  | m :: rest => by
    show ((if pickAccept p m then (m.pos, consumeMove p m rest)
      else pickScan p rest).2).stage = p.stage
    split
    · rfl
    · exact pickScan_snd_stage p rest

theorem pickScan_fst_cases (p : MovePicker) :
    ∀ l : List Move, (pickScan p l).1 = Pos.NONE ∨ (pickScan p l).1 ≠ p.ttMove
  | [] => Or.inl rfl
  | m :: rest => by
    show (if pickAccept p m then (m.pos, consumeMove p m rest)
        else pickScan p rest).1 = Pos.NONE ∨
      (if pickAccept p m then (m.pos, consumeMove p m rest)
        else pickScan p rest).1 ≠ p.ttMove
    split
    case isTrue hacc =>
      right
      simp only [pickAccept, Bool.and_eq_true, decide_eq_true_eq] at hacc
      exact hacc.1
    case isFalse hacc => exact pickScan_fst_cases p rest

theorem pick_default (maxMoves : Nat) (p : MovePicker) (h0 : isTTStage p.stage = false)
    (h1 : isMovesStage p.stage = false) (h2 : p.stage ≠ ALLMOVES) :
    pick maxMoves p = (Pos.NONE, p) := by
  have e1 : p.stage ≠ MAIN_MOVES := fun he => absurd (he ▸ h1) (by decide)
  have e3 : p.stage ≠ DEFENDFIVE_MOVES := fun he => absurd (he ▸ h1) (by decide)
  have e5 : p.stage ≠ DEFENDFOUR_MOVES := fun he => absurd (he ▸ h1) (by decide)
  have e7 : p.stage ≠ DEFENDB4F3_MOVES := fun he => absurd (he ▸ h1) (by decide)
  have e9 : p.stage ≠ QVCF_MOVES := fun he => absurd (he ▸ h1) (by decide)
  simp [pick, h0, e1, e3, e5, e7, e9, h2]

theorem pick_fst_ne_ttMove (maxMoves : Nat) (p : MovePicker)
    (h : isTTStage p.stage = false) (hne : p.ttMove ≠ Pos.NONE) :
    (pick maxMoves p).1 ≠ p.ttMove := by
  by_cases hm : isMovesStage p.stage = true
  · rw [pick_at_moves_stage maxMoves p hm, pickNextMove]
    rcases pickScan_fst_cases (movesState maxMoves p) ((movesState maxMoves p).buffer)
      with hres | hres
    · rw [hres]
      exact fun hcontra => hne hcontra.symm
    · rw [movesState_ttMove] at hres
      exact hres
  · by_cases h10 : p.stage = ALLMOVES
    · rw [pick_at_allmoves maxMoves p h10, pickNextMove]
      rcases pickScan_fst_cases p p.buffer with hres | hres
      · rw [hres]
        exact fun hcontra => hne hcontra.symm
      · exact hres
    · rw [pick_default maxMoves p h (by simpa using hm) h10]
      exact fun hcontra => hne hcontra.symm

theorem pick_snd_not_tt (maxMoves : Nat) (p : MovePicker)
    (h : isTTStage p.stage = false) :
    isTTStage ((pick maxMoves p).2).stage = false := by
  by_cases hm : isMovesStage p.stage = true
  · rw [pick_at_moves_stage maxMoves p hm, pickNextMove, pickScan_snd_stage,
      movesState_stage]
    rfl
  · by_cases h10 : p.stage = ALLMOVES
    · rw [pick_at_allmoves maxMoves p h10, pickNextMove, pickScan_snd_stage, h10]
      rfl
    · rw [pick_default maxMoves p h (by simpa using hm) h10]
      exact h

theorem pick_snd_ttMove (maxMoves : Nat) (p : MovePicker) :
    ((pick maxMoves p).2).ttMove = p.ttMove := by
  by_cases h : isTTStage p.stage = true
  · rw [pick_at_tt maxMoves p h]
  · by_cases hm : isMovesStage p.stage = true
    · rw [pick_at_moves_stage maxMoves p hm, pickNextMove, pickScan_snd_ttMove,
        movesState_ttMove]
    · by_cases h10 : p.stage = ALLMOVES
      · rw [pick_at_allmoves maxMoves p h10, pickNextMove, pickScan_snd_ttMove]
      · rw [pick_default maxMoves p (by simpa using h) (by simpa using hm) h10]

theorem runPicker_count_zero (maxMoves : Nat) : ∀ (n : Nat) (p : MovePicker),
    isTTStage p.stage = false → p.ttMove ≠ Pos.NONE →
    (runPicker maxMoves n p).count p.ttMove = 0
  | 0, _, _, _ => rfl
  | n + 1, p, h, hne => by
    rw [runPicker, List.count_cons]
    have hhead : (pick maxMoves p).1 ≠ p.ttMove := pick_fst_ne_ttMove maxMoves p h hne
    have htail : (runPicker maxMoves n (pick maxMoves p).2).count p.ttMove = 0 := by
      have hne2 : ((pick maxMoves p).2).ttMove ≠ Pos.NONE := by
        rw [pick_snd_ttMove]
        exact hne
      have := runPicker_count_zero maxMoves n (pick maxMoves p).2
        (pick_snd_not_tt maxMoves p h) hne2
      rw [pick_snd_ttMove] at this
      exact this
    rw [htail]
    simp [beq_iff_eq, hhead]

theorem pick_snd_board (maxMoves : Nat) (p : MovePicker) :
    ((pick maxMoves p).2).board = p.board := by
  by_cases h : isTTStage p.stage = true
  · rw [pick_at_tt maxMoves p h]
  · by_cases hm : isMovesStage p.stage = true
    · rw [pick_at_moves_stage maxMoves p hm, pickNextMove, pickScan_snd_board,
        movesState_board]
    · by_cases h10 : p.stage = ALLMOVES
      · rw [pick_at_allmoves maxMoves p h10, pickNextMove, pickScan_snd_board]
      · rw [pick_default maxMoves p (by simpa using h) (by simpa using hm) h10]

theorem pick_snd_rule (maxMoves : Nat) (p : MovePicker) :
    ((pick maxMoves p).2).rule = p.rule := by
  by_cases h : isTTStage p.stage = true
  · rw [pick_at_tt maxMoves p h]
  · by_cases hm : isMovesStage p.stage = true
    · rw [pick_at_moves_stage maxMoves p hm, pickNextMove, pickScan_snd_rule,
        movesState_rule]
    · by_cases h10 : p.stage = ALLMOVES
      · rw [pick_at_allmoves maxMoves p h10, pickNextMove, pickScan_snd_rule]
      · rw [pick_default maxMoves p (by simpa using h) (by simpa using hm) h10]

theorem pickScan_fst_not_forbidden (p : MovePicker)
    (hr : p.rule = Rule.RENJU) (hs : p.board.sideToMove = Color.BLACK) :
    ∀ l : List Move, (pickScan p l).1 = Pos.NONE ∨
      p.board.checkForbiddenPoint (pickScan p l).1 = false
  | [] => Or.inl rfl
  | m :: rest => by
    show (if pickAccept p m then (m.pos, consumeMove p m rest)
        else pickScan p rest).1 = Pos.NONE ∨
      p.board.checkForbiddenPoint (if pickAccept p m then (m.pos, consumeMove p m rest)
        else pickScan p rest).1 = false
    split
    case isTrue hacc =>
      right
      simp only [pickAccept, hr, hs, decide_eq_true_eq, Bool.and_eq_true] at hacc
      rcases hacc with ⟨_, hforb⟩
      simpa using hforb
    case isFalse hacc => exact pickScan_fst_not_forbidden p hr hs rest

theorem pick_fst_not_forbidden (maxMoves : Nat) (p : MovePicker)
    (h : isTTStage p.stage = false) (hr : p.rule = Rule.RENJU)
    (hs : p.board.sideToMove = Color.BLACK) :
    (pick maxMoves p).1 = Pos.NONE ∨
      p.board.checkForbiddenPoint (pick maxMoves p).1 = false := by
  by_cases hm : isMovesStage p.stage = true
  · rw [pick_at_moves_stage maxMoves p hm, pickNextMove]
    have hmv := pickScan_fst_not_forbidden (movesState maxMoves p)
      (by rw [movesState_rule]; exact hr) (by rw [movesState_board]; exact hs)
      ((movesState maxMoves p).buffer)
    rcases hmv with h1 | h1
    · exact Or.inl h1
    · right
      rw [movesState_board] at h1
      exact h1
  · by_cases h10 : p.stage = ALLMOVES
    · rw [pick_at_allmoves maxMoves p h10, pickNextMove]
      exact pickScan_fst_not_forbidden p hr hs p.buffer
    · rw [pick_default maxMoves p h (by simpa using hm) h10]
      exact Or.inl rfl

/-- C2, amended: during buffer streaming (every stage except the `*_TT`
emission) under Renju with Black to move, no yielded position is a
forbidden point — `pickNextMove` filters them with
`checkForbiddenPoint`.  The TT-stage emission performs no such check (see
the counterexample). -/
theorem c2_amended (maxMoves : Nat) : ∀ (n : Nat) (p : MovePicker) (q : Pos),
    isTTStage p.stage = false → p.rule = Rule.RENJU →
    p.board.sideToMove = Color.BLACK → q ∈ runPicker maxMoves n p →
    q = Pos.NONE ∨ p.board.checkForbiddenPoint q = false
  | 0, p, q, _, _, _, hq => by simp [runPicker] at hq
  | n + 1, p, q, h, hr, hs, hq => by
    rw [runPicker] at hq
    rcases List.mem_cons.mp hq with rfl | hq2
    · exact pick_fst_not_forbidden maxMoves p h hr hs
    · have hrec := c2_amended maxMoves n (pick maxMoves p).2 q
        (pick_snd_not_tt maxMoves p h)
        (by rw [pick_snd_rule]; exact hr)
        (by rw [pick_snd_board]; exact hs) hq2
      rcases hrec with h1 | h1
      · exact Or.inl h1
      · right
        rw [pick_snd_board] at h1
        exact h1

/-- C2, counterexample: under RENJU with Black to move and an opponent
open four, the MAIN constructor accepts a TT move whose `pattern4[BLACK]`
is `FORBID`, and the first streaming call yields that forbidden point —
so a forbidden point IS yielded, at the TT stage. -/
theorem c2_counterexample :
    pickerC2.rule = Rule.RENJU ∧ boardC2.sideToMove = Color.BLACK ∧
      (boardC2.cell posC2).pattern4 Color.BLACK = FORBID ∧
      pickerC2.stage = DEFENDFOUR_TT ∧
      (pick 24 pickerC2).1 = posC2 ∧
      boardC2.checkForbiddenPoint posC2 = true := by
  decide

/-- Witness for C2: the amended no-forbidden-yield property evaluated on
a concrete Renju-Black picker at `ALLMOVES`. -/
theorem c2_witness :
    Pos.cellAt 1 1 = Pos.NONE ∨
      pickerW.board.checkForbiddenPoint (Pos.cellAt 1 1) = false :=
  c2_amended 24 1 pickerW (Pos.cellAt 1 1) (by decide) (by decide) (by decide) (by decide)

/-- C4, amended: a yield made by `pickNextMove` (from `ALLMOVES`, and
from any `*_MOVES` stage falling through into it) writes `curScore` and
`curPolicyScore` from the yielded move's `score` and `raw_score`; the
`*_TT` stage emission leaves both fields untouched (uninitialized if no
buffer yield happened before — see the counterexample). -/
theorem c4_amended (maxMoves : Nat) (p : MovePicker) :
    (isTTStage p.stage = true →
      (pick maxMoves p).1 = p.ttMove ∧
        (pick maxMoves p).2.curScore = p.curScore ∧
        (pick maxMoves p).2.curPolicyScore = p.curPolicyScore) ∧
    (p.stage = ALLMOVES → ∀ m fl, p.buffer.filter (pickAccept p) = m :: fl →
      (pick maxMoves p).1 = m.pos ∧
        (pick maxMoves p).2.curScore = some m.score ∧
        (pick maxMoves p).2.curPolicyScore = some m.rawScore) ∧
    (isMovesStage p.stage = true → ∀ m fl,
      (movesState maxMoves p).buffer.filter (pickAccept (movesState maxMoves p)) = m :: fl →
      (pick maxMoves p).1 = m.pos ∧
        (pick maxMoves p).2.curScore = some m.score ∧
        (pick maxMoves p).2.curPolicyScore = some m.rawScore) := by
  refine ⟨?_, ?_, ?_⟩
  · intro h
    rw [pick_at_tt maxMoves p h]
    exact ⟨rfl, rfl, rfl⟩
  · intro h10 m fl hfil
    rw [pick_at_allmoves maxMoves p h10, pickNextMove]
    obtain ⟨rest, hscan, _⟩ := pickScan_of_filter_cons hfil
    rw [hscan]
    exact ⟨rfl, rfl, rfl⟩
  · intro hm m fl hfil
    rw [pick_at_moves_stage maxMoves p hm, pickNextMove]
    obtain ⟨rest, hscan, _⟩ := pickScan_of_filter_cons hfil
    rw [hscan]
    exact ⟨rfl, rfl, rfl⟩

/-- C4, counterexample: a successful TT-stage yield (the yielded position
is not `NONE`) after which `curScore` and `curPolicyScore` still hold no
value at all — they were not updated from the yield. -/
theorem c4_counterexample :
    (pick 24 pickerC4).1 = posC4 ∧ posC4 ≠ Pos.NONE ∧
      (pick 24 pickerC4).2.curScore = none ∧
      (pick 24 pickerC4).2.curPolicyScore = none := by
  decide

/-- Witness for C4: the amended update property evaluated at a concrete
TT-stage picker and a concrete `ALLMOVES` picker. -/
theorem c4_witness :
    ((pick 24 pickerC4).1 = pickerC4.ttMove ∧
      (pick 24 pickerC4).2.curScore = pickerC4.curScore ∧
      (pick 24 pickerC4).2.curPolicyScore = pickerC4.curPolicyScore) ∧
    ((pick 24 pickerW).1 = Pos.cellAt 1 1 ∧
      (pick 24 pickerW).2.curScore = some 3 ∧
      (pick 24 pickerW).2.curPolicyScore = some 2) := by
  constructor
  · exact (c4_amended 24 pickerC4).1 (by decide)
  · exact (c4_amended 24 pickerW).2.1 rfl { pos := Pos.cellAt 1 1, score := 3, rawScore := 2 }
      [] (by decide)

/-- C8: at `DEFENDFIVE_MOVES`, if the TT move was yielded (stored TT move
not `NONE`) no generation happens, the buffer stays empty and the call
returns `NONE`; otherwise the `DEFEND_FIVE` generation is streamed as-is
— no scoring, no sorting — in generation order (filtered only by the
streaming legality tests). -/
theorem c8_defendfive (maxMoves n : Nat) (p : MovePicker)
    (h3 : p.stage = DEFENDFIVE_MOVES) :
    (p.ttMove ≠ Pos.NONE →
      (pick maxMoves p).1 = Pos.NONE ∧ (pick maxMoves p).2.buffer = []) ∧
    (p.ttMove = Pos.NONE →
      runPicker maxMoves n p =
        streamOf ((p.board.genDefendFive.filter
          (pickAccept (defendFiveState p))).map Move.pos) n) := by
  have hm : isMovesStage p.stage = true := by
    rw [h3]
    rfl
  have hms : movesState maxMoves p = defendFiveState p := by
    unfold movesState
    rw [if_neg (by rw [h3]; decide), if_pos h3]
  constructor
  · intro htt
    have hbuf : (defendFiveState p).buffer = [] := by
      show (if p.ttMove = Pos.NONE then p.board.genDefendFive else []) = []
      rw [if_neg htt]
    rw [pick_at_moves_stage maxMoves p hm, hms, pickNextMove, hbuf]
    exact ⟨rfl, rfl⟩
  · intro htt
    have hbuf : (defendFiveState p).buffer = p.board.genDefendFive := by
      show (if p.ttMove = Pos.NONE then p.board.genDefendFive else []) = _
      rw [if_pos htt]
    rw [runPicker_from_moves maxMoves n p hm, hms, hbuf]

/-- Witness for C8: both branches evaluated on concrete
`DEFENDFIVE_MOVES` pickers over `boardC8`. -/
theorem c8_witness :
    ((pick 4 pickerC8tt).1 = Pos.NONE ∧ (pick 4 pickerC8tt).2.buffer = []) ∧
      runPicker 4 2 pickerC8 =
        streamOf ((boardC8.genDefendFive.filter
          (pickAccept (defendFiveState pickerC8))).map Move.pos) 2 := by
  constructor
  · exact (c8_defendfive 4 2 pickerC8tt (by decide)).1 (by decide)
  · exact (c8_defendfive 4 2 pickerC8 (by decide)).2 (by decide)

/-- C9: from a `*_TT` stage with a stored TT move, the first streaming
call yields exactly the TT move and no later call ever yields that
position again (`pickNextMove` skips every buffer element equal to it),
so the TT move occurs at most once in any stream prefix. -/
theorem c9_no_tt_repeat (maxMoves n : Nat) (p : MovePicker)
    (htt : isTTStage p.stage = true) (hne : p.ttMove ≠ Pos.NONE) :
    (1 ≤ n → (runPicker maxMoves n p).head? = some p.ttMove) ∧
      (runPicker maxMoves n p).count p.ttMove ≤ 1 := by
  cases n with
  | zero =>
    exact ⟨fun hc => absurd hc (by omega), by simp [runPicker]⟩
  | succ n =>
    have hstep : runPicker maxMoves (n + 1) p =
        p.ttMove :: runPicker maxMoves n { p with stage := p.stage + 1 } := by
      rw [runPicker, pick_at_tt maxMoves p htt]
    have hnt : isTTStage ({ p with stage := p.stage + 1 } : MovePicker).stage = false := by
      show isTTStage (p.stage + 1) = false
      rcases isTTStage_cases htt with h | h | h | h | h <;> rw [h] <;> rfl
    have h0 : (runPicker maxMoves n { p with stage := p.stage + 1 }).count p.ttMove = 0 :=
      runPicker_count_zero maxMoves n _ hnt hne
    constructor
    · intro _
      rw [hstep]
      rfl
    · rw [hstep, List.count_cons_self, h0]

/-- Witness for C9: the TT-once property evaluated on the concrete MAIN
picker over `boardC4`. -/
theorem c9_witness :
    (runPicker 4 3 pickerC4).head? = some pickerC4.ttMove ∧
      (runPicker 4 3 pickerC4).count pickerC4.ttMove ≤ 1 := by
  have h := c9_no_tt_repeat 4 3 pickerC4 (by decide) (by decide)
  exact ⟨h.1 (by omega), h.2⟩

/-- C6, amended: in the MAIN and QVCF constructors the dispatch-specific
TT validity is conjoined with `isEmpty(ttMove)`; when the combination is
false the stage advances by exactly one (the TT emission is skipped) and
the stored TT move becomes `NONE`; when it is true the dispatch stage and
the caller's TT move are kept.  Because the stored `NONE` no longer
filters it, the first yield can still equal the caller's original TT move
if that position reappears among the generated moves (see the
counterexample). -/
theorem c6_amended (rule : Rule) (b : Board) (tt : Pos) (mh : MainHistory)
    (cmh : CounterMoveHistory) (depth : Int) (v0 v1 : Pattern4) :
    (((mainDispatch rule b tt).2 && b.isEmpty tt) = false →
      (mainPicker rule b tt mh cmh).stage = (mainDispatch rule b tt).1 + 1 ∧
        (mainPicker rule b tt mh cmh).ttMove = Pos.NONE) ∧
    (((mainDispatch rule b tt).2 && b.isEmpty tt) = true →
      (mainPicker rule b tt mh cmh).stage = (mainDispatch rule b tt).1 ∧
        (mainPicker rule b tt mh cmh).ttMove = tt) ∧
    (((qvcfDispatch b tt).2 && b.isEmpty tt) = false →
      (qvcfPicker rule b tt depth v0 v1).stage = (qvcfDispatch b tt).1 + 1 ∧
        (qvcfPicker rule b tt depth v0 v1).ttMove = Pos.NONE) ∧
    (((qvcfDispatch b tt).2 && b.isEmpty tt) = true →
      (qvcfPicker rule b tt depth v0 v1).stage = (qvcfDispatch b tt).1 ∧
        (qvcfPicker rule b tt depth v0 v1).ttMove = tt) := by
  refine ⟨fun hv => ⟨?_, ?_⟩, fun hv => ⟨?_, ?_⟩, fun hv => ⟨?_, ?_⟩, fun hv => ⟨?_, ?_⟩⟩
  · show (mainDispatch rule b tt).1 +
        (if ((mainDispatch rule b tt).2 && b.isEmpty tt) = true then 0 else 1) = _
    rw [if_neg (by simp [hv])]
  · show (if ((mainDispatch rule b tt).2 && b.isEmpty tt) = true then tt else Pos.NONE) = _
    rw [if_neg (by simp [hv])]
  · show (mainDispatch rule b tt).1 +
        (if ((mainDispatch rule b tt).2 && b.isEmpty tt) = true then 0 else 1) = _
    rw [if_pos hv]
    omega
  · show (if ((mainDispatch rule b tt).2 && b.isEmpty tt) = true then tt else Pos.NONE) = _
    rw [if_pos hv]
  · show (qvcfDispatch b tt).1 +
        (if ((qvcfDispatch b tt).2 && b.isEmpty tt) = true then 0 else 1) = _
    rw [if_neg (by simp [hv])]
  · show (if ((qvcfDispatch b tt).2 && b.isEmpty tt) = true then tt else Pos.NONE) = _
    rw [if_neg (by simp [hv])]
  · show (qvcfDispatch b tt).1 +
        (if ((qvcfDispatch b tt).2 && b.isEmpty tt) = true then 0 else 1) = _
    rw [if_pos hv]
    omega
  · show (if ((qvcfDispatch b tt).2 && b.isEmpty tt) = true then tt else Pos.NONE) = _
    rw [if_pos hv]

/-- C6, counterexample: the combined TT validity is false (stage is
advanced past `DEFENDFOUR_TT`, stored TT move is `NONE`), yet the first
yield IS the caller's original TT move, because that empty cell
reappears in the `DEFEND_FOUR` generation and the stored `NONE` no
longer excludes it — the claim's "the first yield is not the caller's
ttMove" fails. -/
theorem c6_counterexample :
    ((mainDispatch Rule.FREESTYLE boardC6 posC6).2 && boardC6.isEmpty posC6) = false ∧
      pickerC6.stage = DEFENDFOUR_TT + 1 ∧ pickerC6.ttMove = Pos.NONE ∧
      (pick 24 pickerC6).1 = posC6 := by
  decide

/-- Witness for C6: the amended skip-and-clear behaviour applied to the
concrete invalid-TT board `boardC6` and to a concrete valid-TT board. -/
theorem c6_witness :
    ((mainPicker Rule.FREESTYLE boardC6 posC6 zeroMainHistory zeroCMHistory).stage =
        (mainDispatch Rule.FREESTYLE boardC6 posC6).1 + 1 ∧
      (mainPicker Rule.FREESTYLE boardC6 posC6 zeroMainHistory zeroCMHistory).ttMove =
        Pos.NONE) ∧
    ((mainPicker Rule.FREESTYLE boardC4 posC4 zeroMainHistory zeroCMHistory).stage =
        (mainDispatch Rule.FREESTYLE boardC4 posC4).1 ∧
      (mainPicker Rule.FREESTYLE boardC4 posC4 zeroMainHistory zeroCMHistory).ttMove =
        posC4) := by
  constructor
  · exact (c6_amended Rule.FREESTYLE boardC6 posC6 zeroMainHistory zeroCMHistory 0 0 0).1
      (by decide)
  · exact (c6_amended Rule.FREESTYLE boardC4 posC4 zeroMainHistory zeroCMHistory 0 0 0).2.1
      (by decide)

/-- C10: the MAIN and QVCF constructors evaluate `board.cell(ttMove)`
inside the threat dispatch, before the emptiness conjunction, even when
the caller passes `ttMove = NONE`: with a cell accessor that is undefined
at `NONE`, construction under an opponent `A_FIVE` or `B_FLEX4` dispatch
(MAIN) or under any dispatch (QVCF) is undefined, regardless of what
`isEmpty(NONE)` would have returned; with a total accessor the checked
construction agrees with the plain one. -/
theorem c10_cell_eval_order (rule : Rule) (b : Board) (tt : Pos) (mh : MainHistory)
    (cmh : CounterMoveHistory) (depth : Int) (v0 v1 : Pattern4) :
    ((b.p4Count b.sideToMove.opp A_FIVE ≠ 0 ∨ b.p4Count b.sideToMove.opp B_FLEX4 ≠ 0) →
      mainPickerChecked rule b (fun _ => none) Pos.NONE mh cmh = none) ∧
    qvcfPickerChecked rule b (fun _ => none) Pos.NONE depth v0 v1 = none ∧
    mainPickerChecked rule b (fun q => some (b.cell q)) tt mh cmh =
      some (mainPicker rule b tt mh cmh) ∧
    qvcfPickerChecked rule b (fun q => some (b.cell q)) tt depth v0 v1 =
      some (qvcfPicker rule b tt depth v0 v1) := by
  refine ⟨?_, ?_, ?_, ?_⟩
  · intro hdisp
    unfold mainPickerChecked
    by_cases h1 : b.p4Count b.sideToMove.opp A_FIVE ≠ 0
    · rw [if_pos h1]
      rfl
    · rcases hdisp with hd | hd
      · exact absurd hd h1
      · rw [if_neg h1, if_pos hd]
        rfl
  · unfold qvcfPickerChecked
    by_cases h1 : b.p4Count b.sideToMove.opp A_FIVE ≠ 0
    · rw [if_pos h1]
      rfl
    · rw [if_neg h1]
      rfl
  · unfold mainPickerChecked mainPicker mainDispatch
    by_cases h1 : b.p4Count b.sideToMove.opp A_FIVE ≠ 0
    · simp only [if_pos h1]
      rfl
    · simp only [if_neg h1]
      by_cases h2 : b.p4Count b.sideToMove.opp B_FLEX4 ≠ 0
      · simp only [if_pos h2]
        rfl
      · simp only [if_neg h2]
        by_cases h3 : (decide (b.p4Count b.sideToMove.opp C_BLOCK4_FLEX3 ≠ 0) &&
            (decide (rule ≠ Rule.RENJU) || b.validateOpponentCMove)) = true
        · simp only [if_pos h3]
          rfl
        · simp only [if_neg h3]
          rfl
  · unfold qvcfPickerChecked qvcfPicker qvcfDispatch
    by_cases h1 : b.p4Count b.sideToMove.opp A_FIVE ≠ 0
    · simp only [if_pos h1]
      rfl
    · simp only [if_neg h1]
      rfl

/-- Witness for C10: the undefinedness and agreement facts evaluated on
the concrete board `boardC8` (which has an opponent `A_FIVE` threat). -/
theorem c10_witness :
    mainPickerChecked Rule.FREESTYLE boardC8 (fun _ => none) Pos.NONE
        zeroMainHistory zeroCMHistory = none ∧
      qvcfPickerChecked Rule.FREESTYLE boardC8 (fun _ => none) Pos.NONE 0 0 0 = none ∧
      mainPickerChecked Rule.FREESTYLE boardC8 (fun q => some (boardC8.cell q)) Pos.NONE
          zeroMainHistory zeroCMHistory =
        some (mainPicker Rule.FREESTYLE boardC8 Pos.NONE zeroMainHistory zeroCMHistory) := by
  have h := c10_cell_eval_order Rule.FREESTYLE boardC8 Pos.NONE zeroMainHistory
    zeroCMHistory 0 0 0
  exact ⟨h.1 (Or.inl (by decide)), h.2.1, h.2.2.1⟩

/-- C3: the scorer's base-score branch chain tests `bool(Type &
BALANCED)`, which is already nonzero when only `ATTACK` (or only
`DEFEND`) is set, so the attack and defend formulas written in the two
later branches are unreachable: with `ATTACK` alone (cell scores
`self = 9`, `oppo = 0`) the code assigns `score = raw_score = 9`
(`c.score[self]`), not `(2*9 + 0)/3 = 6` as the claim (and the dead
branch) prescribe; symmetrically for `DEFEND` alone, not
`(9 + 2*0)/3 = 3`.  With both flags (`BALANCED`) the result is
`c.score[self]` as claimed. -/
theorem c3_dead_branch_eval :
    (scoreMoves pickerC3 ST_ATTACK).buffer =
        [{ pos := posC3, score := 9, rawScore := 9 }] ∧
      (scoreMoves pickerC3 ST_DEFEND).buffer =
        [{ pos := posC3, score := 9, rawScore := 9 }] ∧
      (scoreMoves pickerC3 (ST_ATTACK ||| ST_DEFEND)).buffer =
        [{ pos := posC3, score := 9, rawScore := 9 }] ∧
      (9 : Int) ≠ Int.tdiv (9 * 2 + 0) 3 ∧
      (9 : Int) ≠ Int.tdiv (9 + 0 * 2) 3 := by
  decide

/-- C7, amended: with `MAIN_HISTORY` set the scorer adds to `score` (and
never to `raw_score`) the truncating division `mainHistory[...][ATTACK] / 128`
when `pattern4[self] ≥ H_FLEX3`, else `[QUIET] / 256` — C++ `/` truncates
toward zero, which on negative odd-remainder history values differs from
the claimed arithmetic right shift (floor division). -/
theorem c7_amended (p : MovePicker) (flags : Nat) (pol : Option (Pos → Score))
    (m : Move) (h : flags &&& ST_MAIN_HISTORY ≠ 0) :
    (scoreMove p flags pol m).score =
        (scoreBase flags p.board.sideToMove p.board.sideToMove.opp pol
            (p.board.cell m.pos) m).score +
          mainHistTerm p.mainHistory p.board.sideToMove (p.board.cell m.pos) m.pos +
          (if flags &&& ST_COUNTER_MOVE ≠ 0 then
            counterMoveTerm p.counterMoveHistory p.board p.board.sideToMove.opp
              p.board.sideToMove (p.board.cell m.pos) m.pos
           else 0) ∧
      (scoreMove p flags pol m).rawScore =
        (scoreBase flags p.board.sideToMove p.board.sideToMove.opp pol
          (p.board.cell m.pos) m).rawScore := by
  by_cases hcm : flags &&& ST_COUNTER_MOVE ≠ 0 <;>
    simp [scoreMove, h, hcm]

/-- C7, counterexample: cell score 5, `pattern4[self] = H_FLEX3`,
`mainHistory[self][pos][ATTACK] = -255`: the code adds
`tdiv (-255) 128 = -1` giving score 4, whereas the claimed arithmetic
shift `-255 >> 7` is the floor division `fdiv (-255) 128 = -2`, which
would give 3 — the two disagree. -/
theorem c7_counterexample :
    (scoreMoves pickerC7 (ST_BALANCED ||| ST_MAIN_HISTORY)).buffer =
        [{ pos := posC3, score := 4, rawScore := 5 }] ∧
      Int.tdiv (-255) 128 = -1 ∧ Int.fdiv (-255) 128 = -2 ∧
      ((4 : Int) ≠ 5 + Int.fdiv (-255) 128) := by
  decide

/-- Witness for C7: the amended history-contribution formula evaluated on
the concrete picker `pickerC7`. -/
theorem c7_witness :
    (scoreMove pickerC7 (ST_BALANCED ||| ST_MAIN_HISTORY) none
        { pos := posC3, score := 0, rawScore := 0 }).score =
      (scoreBase (ST_BALANCED ||| ST_MAIN_HISTORY) pickerC7.board.sideToMove
          pickerC7.board.sideToMove.opp none (pickerC7.board.cell posC3)
          { pos := posC3, score := 0, rawScore := 0 }).score +
        mainHistTerm pickerC7.mainHistory pickerC7.board.sideToMove
          (pickerC7.board.cell posC3) posC3 +
        (if (ST_BALANCED ||| ST_MAIN_HISTORY) &&& ST_COUNTER_MOVE ≠ 0 then
          counterMoveTerm pickerC7.counterMoveHistory pickerC7.board
            pickerC7.board.sideToMove.opp pickerC7.board.sideToMove
            (pickerC7.board.cell posC3) posC3
         else 0) :=
  (c7_amended pickerC7 (ST_BALANCED ||| ST_MAIN_HISTORY) none
    { pos := posC3, score := 0, rawScore := 0 } (by decide)).1

/-- Witness for C5: the exhaustion bound evaluated on the quiet baseline
board with capacity 1. -/
theorem c5_witness :
    exhaustsBound 1 (rootPicker Rule.FREESTYLE baseBoard) ∧
      exhaustsBound 1 (mainPicker Rule.FREESTYLE baseBoard Pos.NONE
        zeroMainHistory zeroCMHistory) ∧
      exhaustsBound 1 (qvcfPicker Rule.FREESTYLE baseBoard Pos.NONE 0 0 0) :=
  c5_exhaustion 1 Rule.FREESTYLE baseBoard Pos.NONE zeroMainHistory zeroCMHistory 0 0 0
    ⟨by decide, by decide, by decide, by decide, fun _ => (by decide : (([] : List Move) ++ []).length ≤ 1), by decide,
      fun _ => (by decide : ([] : List Move).length ≤ 1),
      fun _ => (by decide : ([] : List Move).length ≤ 1)⟩

end Rapfi
